import Mathlib

/-!
Verification of the UUIDv7 embedded generator (UUID7.cpp / UUID7.h).

This file gives a shallow embedding of the native (PLATFORMIO_NATIVE,
non-`UUID7_OPTIMIZE_SIZE`) code path of the library and proves the
spec-level claims about it.  Machine integers are modelled as `Nat`
with explicit `% 2^w` / mask operations exactly where the C code
performs fixed-width arithmetic; the 16-byte identifier buffer is a
record of 16 byte fields.  The injected entropy and clock callbacks
are modelled as streams indexed by the read count, and the persistence
`save` callback is modelled by returning the saved value.
-/

namespace UUID7

/-- The 16-byte identifier buffer `uint8_t _b[16]`, one field per byte. -/
structure B16 where
  b0 : Nat
  b1 : Nat
  b2 : Nat
  b3 : Nat
  b4 : Nat
  b5 : Nat
  b6 : Nat
  b7 : Nat
  b8 : Nat
  b9 : Nat
  b10 : Nat
  b11 : Nat
  b12 : Nat
  b13 : Nat
  b14 : Nat
  b15 : Nat
  deriving Repr, DecidableEq

/-- The buffer as a byte list, index 0 first (the order `memcmp` uses). -/
def B16.toList (b : B16) : List Nat :=
  [b.b0, b.b1, b.b2, b.b3, b.b4, b.b5, b.b6, b.b7,
   b.b8, b.b9, b.b10, b.b11, b.b12, b.b13, b.b14, b.b15]

/-- Well-formedness: every byte fits in `uint8_t`. -/
def wfB (b : B16) : Prop := ∀ v ∈ b.toList, v < 256

instance (b : B16) : Decidable (wfB b) := by
  unfold wfB; infer_instance

/-- The all-zero buffer (`memset(_b, 0, sizeof(_b))` in the constructor). -/
def zeroB16 : B16 := ⟨0,0,0,0,0,0,0,0,0,0,0,0,0,0,0,0⟩

/-- `enum UUIDVersion { UUID_VERSION_4 = 4, UUID_VERSION_7 = 7 }`. -/
inductive UUIDVersion where
  | v4
  | v7
  deriving Repr, DecidableEq

/-- The numeric value of the `UUIDVersion` enum constant. -/
def UUIDVersion.val : UUIDVersion → Nat
  | .v4 => 4
  | .v7 => 7

/-- `enum UUIDOverflowPolicy { UUID_OVERFLOW_FAIL_FAST, UUID_OVERFLOW_WAIT }`. -/
inductive UUIDOverflowPolicy where
  | failFast
  | wait
  deriving Repr, DecidableEq

/-- `UUID7_REGRESSION_THRESHOLD_MS` (default, UUID7.h). -/
def REGRESSION_THRESHOLD_MS : Nat := 10000

/-- The generator's fields (native build, `uint64_t _last_ts_ms`).  The
`_load` / `_save` function pointers are modelled by `Bool` flags telling
whether they are non-null; their I/O is threaded explicitly. -/
structure UUID7State where
  b : B16
  version : UUIDVersion
  overflowPolicy : UUIDOverflowPolicy
  last_ts_ms : Nat
  has_load : Bool
  has_save : Bool
  save_interval_ms : Nat
  last_saved_ts_ms : Nat
  deriving Repr, DecidableEq

/-- The `UUID7()` constructor: version 7, FAIL_FAST, zeroed buffer and
timestamps, no storage callbacks, save interval 10000. -/
def initState : UUID7State :=
  { b := zeroB16
    version := .v7
    overflowPolicy := .failFast
    last_ts_ms := 0
    has_load := false
    has_save := false
    save_interval_ms := 10000
    last_saved_ts_ms := 0 }

/-- `UUID7::setVersion`. -/
def setVersion (s : UUID7State) (v : UUIDVersion) : UUID7State :=
  { s with version := v }

/-- `UUID7::setOverflowPolicy`. -/
def setOverflowPolicy (s : UUID7State) (p : UUIDOverflowPolicy) : UUID7State :=
  { s with overflowPolicy := p }

/-- `UUID7::setStorage`: records whether load/save callbacks are set and
the auto-save interval. -/
def setStorage (s : UUID7State) (loadSet saveSet : Bool) (interval : Nat) :
    UUID7State :=
  { s with has_load := loadSet, has_save := saveSet,
           save_interval_ms := interval }

/-- `UUID7::load` with the adapter's return value passed in as `loaded`.
`saved_ts + _save_interval_ms` is `uint64_t` addition. -/
def load (s : UUID7State) (loaded : Nat) : UUID7State :=
  if s.has_load then
    if loaded > 0 then
      { s with last_saved_ts_ms := loaded
               last_ts_ms := (loaded + s.save_interval_ms) % 2 ^ 64 }
    else s
  else s

/-- `UUID7::fromBytes`: `memcpy(_b, bytes, 16)`. -/
def fromBytes (s : UUID7State) (bytes : B16) : UUID7State :=
  { s with b := bytes }

/-- `UUID7::data`: returns the raw internal bytes. -/
def data (s : UUID7State) : B16 := s.b

/-- The all-zero health check: `sum |= _b[i]` over all 16 bytes. -/
def orAll (e : B16) : Nat :=
  e.b0 ||| e.b1 ||| e.b2 ||| e.b3 ||| e.b4 ||| e.b5 ||| e.b6 ||| e.b7 |||
  e.b8 ||| e.b9 ||| e.b10 ||| e.b11 ||| e.b12 ||| e.b13 ||| e.b14 ||| e.b15

/-- Forcing the version-4 and variant bits:
`_b[6] = (_b[6] & 0x0F) | 0x40; _b[8] = (_b[8] & 0x3F) | 0x80;`. -/
def setV4Bits (e : B16) : B16 :=
  { e with b6 := (e.b6 &&& 0x0F) ||| 0x40
           b8 := (e.b8 &&& 0x3F) ||| 0x80 }

/-- `UUID7::_nextRandom`: increment the 74-bit random field (bytes 15
down to 6) with carry, preserving version and variant bits.  Returns the
mutated buffer and `true` iff the whole field overflowed.  Byte
increments are `uint8_t` (`% 256`). -/
def nextRandom (b : B16) : B16 × Bool :=
  let i15 := (b.b15 + 1) % 256
  if i15 ≠ 0 then ({ b with b15 := i15 }, false) else
  let i14 := (b.b14 + 1) % 256
  if i14 ≠ 0 then ({ b with b15 := i15, b14 := i14 }, false) else
  let i13 := (b.b13 + 1) % 256
  if i13 ≠ 0 then ({ b with b15 := i15, b14 := i14, b13 := i13 }, false) else
  let i12 := (b.b12 + 1) % 256
  if i12 ≠ 0 then
    ({ b with b15 := i15, b14 := i14, b13 := i13, b12 := i12 }, false) else
  let i11 := (b.b11 + 1) % 256
  if i11 ≠ 0 then
    ({ b with b15 := i15, b14 := i14, b13 := i13, b12 := i12,
              b11 := i11 }, false) else
  let i10 := (b.b10 + 1) % 256
  if i10 ≠ 0 then
    ({ b with b15 := i15, b14 := i14, b13 := i13, b12 := i12, b11 := i11,
              b10 := i10 }, false) else
  let i9 := (b.b9 + 1) % 256
  if i9 ≠ 0 then
    ({ b with b15 := i15, b14 := i14, b13 := i13, b12 := i12, b11 := i11,
              b10 := i10, b9 := i9 }, false) else
  let t8 := ((b.b8 &&& 0x3F) + 1) % 256
  let n8 := (b.b8 &&& 0xC0) ||| (t8 &&& 0x3F)
  let bz : B16 :=
    { b with b15 := i15, b14 := i14, b13 := i13, b12 := i12, b11 := i11,
             b10 := i10, b9 := i9, b8 := n8 }
  if t8 &&& 0x40 = 0 then (bz, false) else
  let i7 := (b.b7 + 1) % 256
  if i7 ≠ 0 then ({ bz with b7 := i7 }, false) else
  let t6 := ((b.b6 &&& 0x0F) + 1) % 256
  let n6 := (b.b6 &&& 0xF0) ||| (t6 &&& 0x0F)
  if t6 &&& 0x10 = 0 then ({ bz with b7 := i7, b6 := n6 }, false)
  else ({ bz with b7 := i7, b6 := n6 }, true)

/-- Result of one iteration of the `while (true)` loop in
`UUID7::generate`: either the call returns (`ret`), or, under the WAIT
overflow policy, the loop continues with mutated state (`cont`). -/
inductive BodyRes where
  | ret (ok : Bool) (s : UUID7State) (saved : Option Nat)
  | cont (s : UUID7State)
  deriving Repr, DecidableEq

/-- The success epilogue of a V7 `generate` iteration (lines 439-466):
pack the 48-bit timestamp into bytes 0-5, decide the lazy save
(`now_ms > _last_saved_ts_ms + _save_interval_ms`, `uint64_t`
arithmetic), force version/variant bits, return.  `now` is the
`now_ms` local at that point (equal to `_last_ts_ms`). -/
def finish (s : UUID7State) (now : Nat) : BodyRes :=
  let ts := now &&& 0xFFFFFFFFFFFF
  let b1 : B16 :=
    { s.b with b0 := (ts >>> 40) &&& 0xFF
               b1 := (ts >>> 32) &&& 0xFF
               b2 := (ts >>> 24) &&& 0xFF
               b3 := (ts >>> 16) &&& 0xFF
               b4 := (ts >>> 8) &&& 0xFF
               b5 := ts &&& 0xFF }
  let doSave : Bool :=
    s.has_save && decide ((s.last_saved_ts_ms + s.save_interval_ms) % 2 ^ 64 < now)
  let b2 : B16 :=
    { b1 with b6 := (b1.b6 &&& 0x0F) ||| (s.version.val <<< 4)
              b8 := (b1.b8 &&& 0x3F) ||| 0x80 }
  .ret true
    { s with b := b2
             last_saved_ts_ms := if doSave then now else s.last_saved_ts_ms }
    (if doSave then some now else none)

/-- The overflow exit (lines 469-478): FAIL_FAST returns false, WAIT
continues the loop. -/
def overflowExit (s : UUID7State) : BodyRes :=
  match s.overflowPolicy with
  | .failFast => .ret false s none
  | .wait => .cont s

/-- One iteration of the V7 `while (true)` loop body of `UUID7::generate`
(lines 333-480, native non-OPTIMIZE path).  `ovf` is the call-local
`overflow_state` flag, `e` the fresh scratch entropy, `now0` the fresh
clock reading. -/
def generateBody (s : UUID7State) (ovf : Bool) (e : B16) (now0 : Nat) :
    BodyRes :=
  if orAll e = 0 then .ret false s none
  else if now0 = 0 then .ret false s none
  else if (now0 + REGRESSION_THRESHOLD_MS) % 2 ^ 64 < s.last_ts_ms then
    -- major regression: switch to V4 and emit a V4 identifier
    .ret true { s with version := .v4, b := setV4Bits e } none
  else if s.last_ts_ms < now0 then
    -- new millisecond: adopt now, reseed the random field
    finish { s with last_ts_ms := now0, b := e } now0
  else
    -- same or slightly earlier millisecond: now_ms = _last_ts_ms
    if ovf then overflowExit s
    else if ¬ (s.b.b6 &&& 0xF0 = 0x70) then
      finish { s with b := e } s.last_ts_ms
    else
      match nextRandom s.b with
      | (b', true) => overflowExit { s with b := b' }
      | (b', false) => finish { s with b := b' } s.last_ts_ms

/-- The V4 branch of `UUID7::generate` (lines 319-328).  Note the C code
fills `_b` in place, so a failing health check still leaves the zero
draw in the buffer. -/
def generateV4 (s : UUID7State) (e : B16) : Bool × UUID7State × Option Nat :=
  let s1 := { s with b := e }
  if orAll e = 0 then (false, s1, none)
  else (true, { s1 with b := setV4Bits e }, none)

/-- The V7 loop of `UUID7::generate`.  Iteration `k` consumes entropy
`ent k` and clock reading `clk k`; `fuel` bounds the number of
iterations (`none` = the WAIT policy's busy loop did not finish within
`fuel` iterations). -/
def generateLoop (ent : Nat → B16) (clk : Nat → Nat) :
    UUID7State → Bool → Nat → Nat → Option (Bool × UUID7State × Option Nat)
  | _, _, _, 0 => none
  | s, ovf, k, fuel + 1 =>
    match generateBody s ovf (ent k) (clk k) with
    | .ret ok s' sv => some (ok, s', sv)
    | .cont s' => generateLoop ent clk s' true (k + 1) fuel

/-- `UUID7::generate`: dispatch on the configured version, then run the
V7 loop.  A custom entropy and clock source are injected as streams. -/
def generate (s : UUID7State) (ent : Nat → B16) (clk : Nat → Nat)
    (fuel : Nat) : Option (Bool × UUID7State × Option Nat) :=
  match s.version with
  | .v4 => some (generateV4 s (ent 0))
  | .v7 => generateLoop ent clk s false 0 fuel

/-- A run of repeated `generate` calls from a start state; call `n` uses
entropy `ent n` and clock value `clk n` (and fuel 1, enough for every
FAIL_FAST call). -/
def runFrom (s0 : UUID7State) (ent : Nat → B16) (clk : Nat → Nat) :
    Nat → UUID7State
  | 0 => s0
  | n + 1 =>
    match generate (runFrom s0 ent clk n) (fun _ => ent n) (fun _ => clk n) 1 with
    | some (_, s', _) => s'
    | none => runFrom s0 ent clk n

/-- Whether call `n` of the run succeeded. -/
def okAt (s0 : UUID7State) (ent : Nat → B16) (clk : Nat → Nat) (n : Nat) :
    Bool :=
  match generate (runFrom s0 ent clk n) (fun _ => ent n) (fun _ => clk n) 1 with
  | some (ok, _, _) => ok
  | none => false

/-- The identifier bytes left in the buffer by call `n` of the run. -/
def idAt (s0 : UUID7State) (ent : Nat → B16) (clk : Nat → Nat) (n : Nat) :
    List Nat :=
  (runFrom s0 ent clk (n + 1)).b.toList

/-- The timestamp call `n` passed to the `save` callback, if any. -/
def saveAt (s0 : UUID7State) (ent : Nat → B16) (clk : Nat → Nat) (n : Nat) :
    Option Nat :=
  match generate (runFrom s0 ent clk n) (fun _ => ent n) (fun _ => clk n) 1 with
  | some (_, _, sv) => sv
  | none => none

/-- Strict byte-lexicographic order on byte lists (the order of
`memcmp` over the 16-byte buffers). -/
def lexLtBytes : List Nat → List Nat → Bool
  | [], [] => false
  | [], _ :: _ => true
  | _ :: _, [] => false
  | a :: as, b :: bs =>
    if a < b then true
    else if b < a then false
    else lexLtBytes as bs

/-- `static const char hexLower[] = "0123456789abcdef"`. -/
def hexLower : List Char := "0123456789abcdef".toList

/-- `static const char hexUpper[] = "0123456789ABCDEF"`. -/
def hexUpper : List Char := "0123456789ABCDEF".toList

/-- `hex[n]` for an index already masked to 4 bits. -/
def hexDigit (uppercase : Bool) (n : Nat) : Char :=
  (if uppercase then hexUpper else hexLower).getD n '0'

/-- The hex conversion loop of `UUID7::toString` (lines 494-502): at
byte index `i`, optionally emit a dash (before byte 4, 6, 8, 10), then
the two hex digits of the byte. -/
def toStringLoop (uppercase dashes : Bool) : Nat → List Nat → List Char
  | _, [] => []
  | i, v :: rest =>
    (if dashes ∧ (i = 4 ∨ i = 6 ∨ i = 8 ∨ i = 10) then ['-'] else []) ++
    hexDigit uppercase ((v >>> 4) &&& 0x0F) ::
    hexDigit uppercase (v &&& 0x0F) ::
    toStringLoop uppercase dashes (i + 1) rest

/-- `UUID7::toString`: fails iff the buffer is smaller than the required
length (37 dashed, 33 bare, terminator included); otherwise yields the
encoded text (the terminator is not part of the model). -/
def toString (b : B16) (buflen : Nat) (uppercase dashes : Bool) :
    Option (List Char) :=
  let required := if dashes then 37 else 33
  if buflen < required then none
  else some (toStringLoop uppercase dashes 0 b.toList)

/-- The `hexval` lambda of `UUID7::parseFromString`; `none` models the
C code's `-1`. -/
def hexval (c : Char) : Option Nat :=
  if '0' ≤ c ∧ c ≤ '9' then some (c.toNat - '0'.toNat)
  else if 'a' ≤ c ∧ c ≤ 'f' then some (10 + c.toNat - 'a'.toNat)
  else if 'A' ≤ c ∧ c ≤ 'F' then some (10 + c.toNat - 'A'.toNat)
  else none

/-- The byte loop of `UUID7::parseFromString` (lines 531-546): `r` is
the number of bytes still to read, `i = 16 - r` the C loop index.  At
byte 4, 6, 8, 10 a dashed input must have a `-`.  Reading past the end
of the text behaves like the C code meeting the terminator (a non-hex
character). -/
def parseLoop (dashed : Bool) : Nat → Nat → List Char → Option (List Nat)
  | 0, _, _ => some []
  | r + 1, i, cs =>
    let step : List Char → Option (List Nat) := fun cs =>
      match cs with
      | c1 :: c2 :: rest =>
        match hexval c1, hexval c2 with
        | some hi, some lo =>
          (parseLoop dashed r (i + 1) rest).map
            (fun bs => ((hi <<< 4) ||| lo) :: bs)
        | _, _ => none
      | _ => none
    if dashed ∧ (i = 4 ∨ i = 6 ∨ i = 8 ∨ i = 10) then
      match cs with
      | '-' :: rest => step rest
      | _ => none
    else step cs

/-- `UUID7::parseFromString`: length 36 selects the dashed format,
length 32 the bare format, anything else is rejected. -/
def parseFromString (cs : List Char) : Option (List Nat) :=
  if cs.length = 36 then parseLoop true 16 0 cs
  else if cs.length = 32 then parseLoop false 16 0 cs
  else none

end UUID7

namespace UUID7

/-! ### Byte-level mask facts -/

theorem and_255_eq_mod (x : Nat) : x &&& 255 = x % 256 := by
  have h := Nat.and_pow_two_sub_one_eq_mod x 8
  norm_num at h
  exact h

theorem and_15_eq_mod (x : Nat) : x &&& 15 = x % 16 := by
  have h := Nat.and_pow_two_sub_one_eq_mod x 4
  norm_num at h
  exact h

theorem and_63_eq_mod (x : Nat) : x &&& 63 = x % 64 := by
  have h := Nat.and_pow_two_sub_one_eq_mod x 6
  norm_num at h
  exact h

theorem and_15_lt (x : Nat) : x &&& 15 < 16 := by
  rw [and_15_eq_mod]; exact Nat.mod_lt _ (by norm_num)

theorem and_63_lt (x : Nat) : x &&& 63 < 64 := by
  rw [and_63_eq_mod]; exact Nat.mod_lt _ (by norm_num)

theorem and_255_lt (x : Nat) : x &&& 255 < 256 := by
  rw [and_255_eq_mod]; exact Nat.mod_lt _ (by norm_num)

theorem lor112_shift : ∀ z < 16, (z ||| 112) >>> 4 = 7 := by decide

theorem lor64_shift : ∀ z < 16, (z ||| 64) >>> 4 = 4 := by decide

theorem lor128_shift : ∀ z < 64, (z ||| 128) >>> 6 = 2 := by decide

theorem ver7_nibble (x : Nat) : ((x &&& 15) ||| (7 <<< 4)) >>> 4 = 7 :=
  lor112_shift _ (and_15_lt x)

theorem ver4_nibble (x : Nat) : ((x &&& 15) ||| 64) >>> 4 = 4 :=
  lor64_shift _ (and_15_lt x)

theorem variant_bits (x : Nat) : ((x &&& 63) ||| 128) >>> 6 = 2 :=
  lor128_shift _ (and_63_lt x)

/-! ### Structure of the generate paths -/

/-- Whether the success epilogue performs the lazy save. -/
def saveCond (s : UUID7State) (now : Nat) : Prop :=
  s.has_save = true ∧ (s.last_saved_ts_ms + s.save_interval_ms) % 2 ^ 64 < now

instance (s : UUID7State) (now : Nat) : Decidable (saveCond s now) := by
  unfold saveCond; infer_instance

/-- The state produced by a successful epilogue. -/
def finishState (s : UUID7State) (now : Nat) : UUID7State :=
  { s with
      b := { s.b with
             b0 := ((now &&& 0xFFFFFFFFFFFF) >>> 40) &&& 0xFF
             b1 := ((now &&& 0xFFFFFFFFFFFF) >>> 32) &&& 0xFF
             b2 := ((now &&& 0xFFFFFFFFFFFF) >>> 24) &&& 0xFF
             b3 := ((now &&& 0xFFFFFFFFFFFF) >>> 16) &&& 0xFF
             b4 := ((now &&& 0xFFFFFFFFFFFF) >>> 8) &&& 0xFF
             b5 := (now &&& 0xFFFFFFFFFFFF) &&& 0xFF
             b6 := (s.b.b6 &&& 0x0F) ||| (s.version.val <<< 4)
             b8 := (s.b.b8 &&& 0x3F) ||| 0x80 }
      last_saved_ts_ms :=
        if saveCond s now then now else s.last_saved_ts_ms }

/-- `finish` unpacked into its state and save-callback effect. -/
theorem finish_spec (s : UUID7State) (now : Nat) :
    finish s now = .ret true (finishState s now)
      (if saveCond s now then some now else none) := by
  unfold finish finishState saveCond
  by_cases hsv : s.has_save = true
  · by_cases hlt : (s.last_saved_ts_ms + s.save_interval_ms) % 2 ^ 64 < now <;>
      simp [hsv, hlt]
  · simp at hsv
    simp [hsv]

/-- `overflowExit` under the FAIL_FAST policy. -/
theorem overflowExit_failFast {s : UUID7State}
    (h : s.overflowPolicy = .failFast) : overflowExit s = .ret false s none := by
  unfold overflowExit
  rw [h]

/-- `overflowExit` never succeeds. -/
theorem overflowExit_ne_ret_true (s : UUID7State) (s' : UUID7State)
    (sv : Option Nat) : overflowExit s ≠ .ret true s' sv := by
  unfold overflowExit
  cases s.overflowPolicy <;> simp

/-- A `cont` exit of `overflowExit` keeps the state it was given. -/
theorem overflowExit_cont {s s₂ : UUID7State}
    (h : overflowExit s = .cont s₂) : s₂ = s := by
  unfold overflowExit at h
  cases hp : s.overflowPolicy <;> rw [hp] at h
  · simp at h
  · rw [BodyRes.cont.injEq] at h
    exact h.symm

/-- A `cont` iteration never changes the configured version. -/
theorem generateBody_cont_version {s : UUID7State} {ovf : Bool} {e : B16}
    {now0 : Nat} {s₂ : UUID7State}
    (h : generateBody s ovf e now0 = .cont s₂) : s₂.version = s.version := by
  unfold generateBody at h
  split at h
  · simp at h
  split at h
  · simp at h
  split at h
  · simp at h
  split at h
  · rw [finish_spec] at h; simp at h
  split at h
  · rw [overflowExit_cont h]
  split at h
  · rw [finish_spec] at h; simp at h
  · split at h
    · rw [overflowExit_cont h]
    · rw [finish_spec] at h; simp at h

/-- Any successful return of a V7 loop iteration carries correctly
forced version and variant bits. -/
theorem generateBody_ret_true_bits {s : UUID7State} {ovf : Bool} {e : B16}
    {now0 : Nat} {s' : UUID7State} {sv : Option Nat}
    (hv : s.version = .v7)
    (h : generateBody s ovf e now0 = .ret true s' sv) :
    s'.b.b6 >>> 4 = s'.version.val ∧ s'.b.b8 >>> 6 = 2 := by
  unfold generateBody at h
  split at h
  · simp at h
  split at h
  · simp at h
  split at h
  · -- major regression: V4 identifier, version switched to v4
    rw [BodyRes.ret.injEq] at h
    obtain ⟨-, hs, -⟩ := h
    subst hs
    exact ⟨ver4_nibble _, variant_bits _⟩
  split at h
  · -- new millisecond
    rw [finish_spec, BodyRes.ret.injEq] at h
    obtain ⟨-, hs, -⟩ := h
    subst hs
    simp only [finishState, hv, UUIDVersion.val]
    exact ⟨ver7_nibble _, variant_bits _⟩
  split at h
  · exact absurd h (overflowExit_ne_ret_true _ _ _)
  split at h
  · -- uninitialized: seed from fresh entropy
    rw [finish_spec, BodyRes.ret.injEq] at h
    obtain ⟨-, hs, -⟩ := h
    subst hs
    simp only [finishState, hv, UUIDVersion.val]
    exact ⟨ver7_nibble _, variant_bits _⟩
  · split at h
    · exact absurd h (overflowExit_ne_ret_true _ _ _)
    · rw [finish_spec, BodyRes.ret.injEq] at h
      obtain ⟨-, hs, -⟩ := h
      subst hs
      simp only [finishState, hv, UUIDVersion.val]
      exact ⟨ver7_nibble _, variant_bits _⟩

/-- `generate` in V4 mode is the V4 branch. -/
theorem generate_v4 {s : UUID7State} (ent : Nat → B16) (clk : Nat → Nat)
    (fuel : Nat) (hv : s.version = .v4) :
    generate s ent clk fuel = some (generateV4 s (ent 0)) := by
  unfold generate
  rw [hv]

/-- `generate` in V7 mode runs the loop. -/
theorem generate_v7 {s : UUID7State} (ent : Nat → B16) (clk : Nat → Nat)
    (fuel : Nat) (hv : s.version = .v7) :
    generate s ent clk fuel = generateLoop ent clk s false 0 fuel := by
  unfold generate
  rw [hv]

/-- Bits invariant lifted through the V7 loop. -/
theorem generateLoop_bits {ent : Nat → B16} {clk : Nat → Nat} :
    ∀ (fuel : Nat) (s : UUID7State) (ovf : Bool) (k : Nat)
      (s' : UUID7State) (sv : Option Nat),
      s.version = .v7 →
      generateLoop ent clk s ovf k fuel = some (true, s', sv) →
      s'.b.b6 >>> 4 = s'.version.val ∧ s'.b.b8 >>> 6 = 2 := by
  intro fuel
  induction fuel with
  | zero => intro s ovf k s' sv _ h; exact absurd h (by simp [generateLoop])
  | succ n ih =>
    intro s ovf k s' sv hv h
    unfold generateLoop at h
    cases hb : generateBody s ovf (ent k) (clk k) with
    | ret ok s₂ sv₂ =>
      rw [hb] at h
      simp only [Option.some.injEq, Prod.mk.injEq] at h
      obtain ⟨hok, hs, hsv⟩ := h
      subst hs
      exact generateBody_ret_true_bits hv (hok ▸ hb)
    | cont s₂ =>
      rw [hb] at h
      exact ih s₂ true (k + 1) s' sv
        ((generateBody_cont_version hb).trans hv) h

end UUID7

/-- C5: every identifier emitted by a successful `generate()` call has
its byte-6 high nibble equal to the generator's configured version when
the identifier is completed (7 in V7 mode, 4 in V4 mode and on the
regression fallback) and the top two bits of byte 8 equal to `0b10`,
for arbitrary entropy bytes. -/
theorem c5_version_variant_invariant
    (s : UUID7.UUID7State) (ent : Nat → UUID7.B16) (clk : Nat → Nat)
    (fuel : Nat) (s' : UUID7.UUID7State) (sv : Option Nat)
    (h : UUID7.generate s ent clk fuel = some (true, s', sv)) :
    s'.b.b6 >>> 4 = s'.version.val ∧ s'.b.b8 >>> 6 = 2 := by
  cases hv : s.version with
  | v4 =>
    rw [UUID7.generate_v4 ent clk fuel hv] at h
    unfold UUID7.generateV4 UUID7.setV4Bits at h
    split at h
    · simp at h
    · simp only [Option.some.injEq, Prod.mk.injEq] at h
      obtain ⟨-, hs, -⟩ := h
      subst hs
      refine ⟨?_, UUID7.variant_bits _⟩
      simp only [hv, UUID7.UUIDVersion.val]
      exact UUID7.ver4_nibble _
  | v7 =>
    rw [UUID7.generate_v7 ent clk fuel hv] at h
    exact UUID7.generateLoop_bits fuel s false 0 s' sv hv h

/-- The state produced by the concrete C5 witness call (the repository's
deterministic test vector). -/
def c5WitnessState : UUID7.UUID7State :=
  { b := ⟨1, 133, 110, 131, 243, 0, 118, 7, 136, 9, 10, 11, 12, 13, 14, 15⟩
    version := .v7
    overflowPolicy := .failFast
    last_ts_ms := 1672596419328
    has_load := false
    has_save := false
    save_interval_ms := 10000
    last_saved_ts_ms := 0 }

/-- Witness for C5 at a concrete input. -/
theorem c5_version_variant_invariant_witness :
    c5WitnessState.b.b6 >>> 4 = c5WitnessState.version.val ∧
      c5WitnessState.b.b8 >>> 6 = 2 :=
  c5_version_variant_invariant UUID7.initState
    (fun _ => ⟨0, 1, 2, 3, 4, 5, 6, 7, 8, 9, 10, 11, 12, 13, 14, 15⟩)
    (fun _ => 1672596419328) 1 c5WitnessState none (by decide)

/-- C6: in V7 mode, a clock source returning 0 makes `generate()` return
failure with the whole generator state (buffer, timestamps, persistence
state) exactly as before the call, and the save callback not invoked. -/
theorem c6_clock_zero_fails_no_mutation
    (s : UUID7.UUID7State) (ent : Nat → UUID7.B16) (clk : Nat → Nat)
    (fuel : Nat) (hv : s.version = .v7) (hc : clk 0 = 0) (hf : 0 < fuel) :
    UUID7.generate s ent clk fuel = some (false, s, none) := by
  obtain ⟨f, rfl⟩ : ∃ f, fuel = f + 1 :=
    ⟨fuel - 1, (Nat.succ_pred_eq_of_pos hf).symm⟩
  unfold UUID7.generate
  rw [hv]
  unfold UUID7.generateLoop UUID7.generateBody
  rw [hc]
  by_cases hz : UUID7.orAll (ent 0) = 0 <;> simp [hz]

/-- Witness for C6 at a concrete input. -/
theorem c6_clock_zero_fails_no_mutation_witness :
    UUID7.generate UUID7.initState
        (fun _ => ⟨1,1,1,1,1,1,1,1,1,1,1,1,1,1,1,1⟩)
        (fun _ => 0) 1 = some (false, UUID7.initState, none) :=
  c6_clock_zero_fails_no_mutation UUID7.initState _ _ 1 (by decide)
    (by decide) (by decide)

/-- C7: an entropy source that fills the buffer with zero bytes makes
every `generate()` call fail, in V4 mode and in V7 mode alike; no
identifier is emitted and no save is made. -/
theorem c7_zero_entropy_fails
    (s : UUID7.UUID7State) (ent : Nat → UUID7.B16) (clk : Nat → Nat)
    (fuel : Nat) (he : ∀ i, ent i = UUID7.zeroB16) (hf : 0 < fuel) :
    ∃ s', UUID7.generate s ent clk fuel = some (false, s', none) := by
  obtain ⟨f, rfl⟩ : ∃ f, fuel = f + 1 :=
    ⟨fuel - 1, (Nat.succ_pred_eq_of_pos hf).symm⟩
  unfold UUID7.generate
  cases hv : s.version with
  | v4 =>
    refine ⟨{ s with b := UUID7.zeroB16 }, ?_⟩
    unfold UUID7.generateV4
    rw [he 0]
    simp [UUID7.orAll, UUID7.zeroB16]
  | v7 =>
    refine ⟨s, ?_⟩
    unfold UUID7.generateLoop UUID7.generateBody
    rw [he 0]
    simp [UUID7.orAll, UUID7.zeroB16]

/-- Witness for C7 at a concrete input. -/
theorem c7_zero_entropy_fails_witness :
    ∃ s', UUID7.generate UUID7.initState (fun _ => UUID7.zeroB16)
        (fun _ => 1000) 1 = some (false, s', none) :=
  c7_zero_entropy_fails UUID7.initState _ _ 1 (fun _ => rfl) (by decide)

/-- C8: with a load callback configured, `load()` with a saved timestamp
`s > 0` sets the last emitted timestamp to `s + save_interval_ms` (the
safety jump; e.g. 5000 loaded with interval 1000 gives 6000), while a
saved value of 0 changes nothing. -/
theorem c8_load_safety_jump (s : UUID7.UUID7State) (loaded : Nat)
    (hl : s.has_load = true) :
    (0 < loaded → loaded + s.save_interval_ms < 2 ^ 64 →
      UUID7.load s loaded =
        { s with last_saved_ts_ms := loaded
                 last_ts_ms := loaded + s.save_interval_ms }) ∧
    (loaded = 0 → UUID7.load s loaded = s) ∧
    (UUID7.load (UUID7.setStorage UUID7.initState true true 1000)
        5000).last_ts_ms = 6000 := by
  refine ⟨fun hpos hlt => ?_, fun hz => ?_, by decide⟩
  · unfold UUID7.load
    rw [hl]
    have hlt' : loaded + s.save_interval_ms < 18446744073709551616 := by
      have h2 : (2 : Nat) ^ 64 = 18446744073709551616 := by norm_num
      rw [h2] at hlt
      exact hlt
    simp [hpos, Nat.mod_eq_of_lt hlt']
  · unfold UUID7.load
    rw [hl]
    simp [hz]

/-- Witness for C8 at a concrete input. -/
theorem c8_load_safety_jump_witness :
    UUID7.load (UUID7.setStorage UUID7.initState true true 1000) 5000 =
      { UUID7.setStorage UUID7.initState true true 1000 with
          last_saved_ts_ms := 5000, last_ts_ms := 6000 } :=
  (c8_load_safety_jump (UUID7.setStorage UUID7.initState true true 1000)
      5000 (by decide)).1 (by decide) (by decide)

namespace UUID7

/-- The 74-bit random field of a V7 identifier: byte-6 low nibble,
byte 7, byte-8 low six bits, bytes 9-15, big-endian. -/
def val74 (b : B16) : Nat :=
  (b.b6 &&& 0x0F) * 2 ^ 70 + b.b7 * 2 ^ 62 + (b.b8 &&& 0x3F) * 2 ^ 56 +
  b.b9 * 2 ^ 48 + b.b10 * 2 ^ 40 + b.b11 * 2 ^ 32 + b.b12 * 2 ^ 24 +
  b.b13 * 2 ^ 16 + b.b14 * 2 ^ 8 + b.b15

/-- The identifier buffer after call `n` of a run. -/
def bufAt (s0 : UUID7State) (ent : Nat → B16) (clk : Nat → Nat) (n : Nat) :
    B16 :=
  (runFrom s0 ent clk (n + 1)).b

/-- An all-ones entropy draw (passes the health check). -/
def onesB16 : B16 := ⟨1,1,1,1,1,1,1,1,1,1,1,1,1,1,1,1⟩

/-- An all-`0xFF` entropy draw. -/
def ffB16 : B16 :=
  ⟨255,255,255,255,255,255,255,255,255,255,255,255,255,255,255,255⟩

/-- Entropy whose random field sits just below a byte-15 wrap:
bytes 14,15 = `0xFE,0xFF`, the rest zero. -/
def carryB16 : B16 := ⟨0,0,0,0,0,0,0,0,0,0,0,0,0,0,254,255⟩

/-- Clock for the C2 scenario: 20000, then a major regression to 5000,
then a recovered 30000. -/
def c2Clk : Nat → Nat := fun n =>
  if n = 0 then 20000 else if n = 1 then 5000 else 30000

/-- The generateBody regression branch, in closed form. -/
theorem generateBody_regression {s : UUID7State} {ovf : Bool} {e : B16}
    {now0 : Nat} (hz : ¬ orAll e = 0) (hc : ¬ now0 = 0)
    (hreg : (now0 + REGRESSION_THRESHOLD_MS) % 2 ^ 64 < s.last_ts_ms) :
    generateBody s ovf e now0 =
      .ret true { s with version := .v4, b := setV4Bits e } none := by
  unfold generateBody
  rw [if_neg hz, if_neg hc, if_pos hreg]

/-- Any successful call from a V4-configured generator yields a
version-4 nibble and leaves the configuration at V4. -/
theorem generate_v4_success_nibble {s : UUID7State} {ent : Nat → B16}
    {clk : Nat → Nat} {fuel : Nat} {s' : UUID7State} {sv : Option Nat}
    (hv : s.version = .v4)
    (h : generate s ent clk fuel = some (true, s', sv)) :
    s'.b.b6 >>> 4 = 4 ∧ s'.version = .v4 := by
  rw [generate_v4 ent clk fuel hv] at h
  unfold generateV4 setV4Bits at h
  split at h
  · simp at h
  · simp only [Option.some.injEq, Prod.mk.injEq] at h
    obtain ⟨-, hs, -⟩ := h
    subst hs
    exact ⟨ver4_nibble _, hv⟩

end UUID7

/-- C2 counterexample: after `last_ts = 20000`, a call at clock 5000
takes the major-regression path; contrary to the claim, the generator's
configured version is switched to V4 (sticky), and a later call with the
recovered clock 30000 produces a Version-4 identifier, not Version-7. -/
theorem c2_counterexample :
    UUID7.okAt UUID7.initState (fun _ => UUID7.onesB16) UUID7.c2Clk 0 = true ∧
    UUID7.okAt UUID7.initState (fun _ => UUID7.onesB16) UUID7.c2Clk 1 = true ∧
    (UUID7.runFrom UUID7.initState (fun _ => UUID7.onesB16) UUID7.c2Clk
        2).version = .v4 ∧
    UUID7.okAt UUID7.initState (fun _ => UUID7.onesB16) UUID7.c2Clk 2 = true ∧
    (UUID7.bufAt UUID7.initState (fun _ => UUID7.onesB16) UUID7.c2Clk
        2).b6 >>> 4 = 4 := by
  decide

/-- C2 (amended): on a major regression the call returns a Version-4
identifier built from the scratch random bytes; `last_ts` and
`last_saved_ts` are untouched (the identifier buffer is overwritten),
but the configured version is permanently switched to V4, so every later
successful call also emits Version-4 identifiers until `setVersion` is
called. -/
theorem c2_regression_sticky_v4
    (s : UUID7.UUID7State) (ent : Nat → UUID7.B16) (clk : Nat → Nat)
    (fuel : Nat) (hv : s.version = .v7) (hz : ¬ UUID7.orAll (ent 0) = 0)
    (hc : ¬ clk 0 = 0)
    (hreg : (clk 0 + 10000) % 2 ^ 64 < s.last_ts_ms) (hf : 0 < fuel) :
    UUID7.generate s ent clk fuel =
      some (true, { s with version := .v4, b := UUID7.setV4Bits (ent 0) },
        none) ∧
    (∀ ent2 clk2 fuel2 s2 sv2,
      UUID7.generate { s with version := .v4, b := UUID7.setV4Bits (ent 0) }
          ent2 clk2 fuel2 = some (true, s2, sv2) →
        s2.b.b6 >>> 4 = 4 ∧ s2.version = .v4) := by
  obtain ⟨f, rfl⟩ : ∃ f, fuel = f + 1 :=
    ⟨fuel - 1, (Nat.succ_pred_eq_of_pos hf).symm⟩
  constructor
  · rw [UUID7.generate_v7 ent clk (f + 1) hv]
    unfold UUID7.generateLoop
    rw [UUID7.generateBody_regression hz hc hreg]
  · intro ent2 clk2 fuel2 s2 sv2 h2
    exact UUID7.generate_v4_success_nibble rfl h2

/-- Witness for C2 (amended) at a concrete input. -/
theorem c2_regression_sticky_v4_witness :
    UUID7.generate { UUID7.initState with last_ts_ms := 20000 }
        (fun _ => UUID7.onesB16) (fun _ => 5000) 1 =
      some (true,
        { { UUID7.initState with last_ts_ms := 20000 } with
            version := .v4, b := UUID7.setV4Bits UUID7.onesB16 },
        none) :=
  (c2_regression_sticky_v4 { UUID7.initState with last_ts_ms := 20000 }
    (fun _ => UUID7.onesB16) (fun _ => 5000) 1 (by decide) (by decide)
    (by decide) (by decide) (by decide)).1

/-- C3 counterexample: with the FAIL_FAST policy and entropy fixed at
all-`0xFF`, the first call saturates the 74-bit random field, so the
second call in the same millisecond does not succeed with an
incremented field — it fails. -/
theorem c3_counterexample :
    UUID7.okAt UUID7.initState (fun _ => UUID7.ffB16) (fun _ => 1000) 0 =
      true ∧
    UUID7.okAt UUID7.initState (fun _ => UUID7.ffB16) (fun _ => 1000) 1 =
      false := by
  decide

/-- C3 (amended): under FAIL_FAST, same-millisecond calls increment the
74-bit random field by exactly 1 when it is not saturated — with entropy
bytes 14,15 = `0xFE,0xFF` the second call wraps byte 15 and carries into
byte 14, and the third call increments byte 15 without touching byte 14 —
while entropy fixed at all-`0xFF` (a saturated field) makes the second
same-millisecond call return failure rather than block. -/
theorem c3_overflow_failfast_amended :
    (UUID7.okAt UUID7.initState (fun _ => UUID7.carryB16) (fun _ => 1000) 0 =
        true ∧
     UUID7.okAt UUID7.initState (fun _ => UUID7.carryB16) (fun _ => 1000) 1 =
        true ∧
     UUID7.okAt UUID7.initState (fun _ => UUID7.carryB16) (fun _ => 1000) 2 =
        true) ∧
    (UUID7.val74 (UUID7.bufAt UUID7.initState (fun _ => UUID7.carryB16)
          (fun _ => 1000) 1) =
       UUID7.val74 (UUID7.bufAt UUID7.initState (fun _ => UUID7.carryB16)
          (fun _ => 1000) 0) + 1 ∧
     UUID7.val74 (UUID7.bufAt UUID7.initState (fun _ => UUID7.carryB16)
          (fun _ => 1000) 2) =
       UUID7.val74 (UUID7.bufAt UUID7.initState (fun _ => UUID7.carryB16)
          (fun _ => 1000) 1) + 1) ∧
    ((UUID7.bufAt UUID7.initState (fun _ => UUID7.carryB16)
          (fun _ => 1000) 0).b15 = 255 ∧
     (UUID7.bufAt UUID7.initState (fun _ => UUID7.carryB16)
          (fun _ => 1000) 0).b14 = 254 ∧
     (UUID7.bufAt UUID7.initState (fun _ => UUID7.carryB16)
          (fun _ => 1000) 1).b15 = 0 ∧
     (UUID7.bufAt UUID7.initState (fun _ => UUID7.carryB16)
          (fun _ => 1000) 1).b14 = 255 ∧
     (UUID7.bufAt UUID7.initState (fun _ => UUID7.carryB16)
          (fun _ => 1000) 2).b15 = 1 ∧
     (UUID7.bufAt UUID7.initState (fun _ => UUID7.carryB16)
          (fun _ => 1000) 2).b14 = 255) ∧
    (UUID7.okAt UUID7.initState (fun _ => UUID7.ffB16) (fun _ => 1000) 0 =
        true ∧
     UUID7.okAt UUID7.initState (fun _ => UUID7.ffB16) (fun _ => 1000) 1 =
        false ∧
     UUID7.initState.overflowPolicy = .failFast) := by
  decide

namespace UUID7

/-- The generateBody new-millisecond branch, reduced to its epilogue. -/
theorem generateBody_new_ms {s : UUID7State} {ovf : Bool} {e : B16}
    {now0 : Nat} (hz : ¬ orAll e = 0) (hc : ¬ now0 = 0)
    (hreg : ¬ (now0 + REGRESSION_THRESHOLD_MS) % 2 ^ 64 < s.last_ts_ms)
    (hlt : s.last_ts_ms < now0) :
    generateBody s ovf e now0 =
      finish { s with last_ts_ms := now0, b := e } now0 := by
  unfold generateBody
  rw [if_neg hz, if_neg hc, if_neg hreg, if_pos hlt]

/-- Start state of the C9 scenario: fresh generator with storage
callbacks and a 1000 ms save interval. -/
def c9Start : UUID7State := setStorage initState true true 1000

/-- Clock for the C9 scenario: 1000, then 6001. -/
def c9Clk : Nat → Nat := fun n => if n = 0 then 1000 else 6001

end UUID7

/-- C9: on a successful `generate()` call with the clock strictly ahead,
the save callback is invoked exactly when
`now > last_saved_ts + save_interval_ms` (strict), with argument `now`,
and `last_saved_ts` is then set to `now`; in particular, with
`save_interval_ms = 1000` and clock values 1000 then 6001 from a fresh
generator, save is invoked exactly once — on the second call, with
argument 6001. -/
theorem c9_lazy_save
    (s : UUID7.UUID7State) (ent : Nat → UUID7.B16) (clk : Nat → Nat)
    (fuel : Nat) (hv : s.version = .v7) (hs : s.has_save = true)
    (hz : ¬ UUID7.orAll (ent 0) = 0) (hlt : s.last_ts_ms < clk 0)
    (hc64 : clk 0 + 10000 < 2 ^ 64)
    (hsum : s.last_saved_ts_ms + s.save_interval_ms < 2 ^ 64)
    (hf : 0 < fuel) :
    (∃ s', UUID7.generate s ent clk fuel = some (true, s',
        if s.last_saved_ts_ms + s.save_interval_ms < clk 0
        then some (clk 0) else none) ∧
      s'.last_saved_ts_ms =
        (if s.last_saved_ts_ms + s.save_interval_ms < clk 0
         then clk 0 else s.last_saved_ts_ms)) ∧
    (UUID7.okAt UUID7.c9Start (fun _ => UUID7.onesB16) UUID7.c9Clk 0 =
        true ∧
     UUID7.okAt UUID7.c9Start (fun _ => UUID7.onesB16) UUID7.c9Clk 1 =
        true ∧
     UUID7.saveAt UUID7.c9Start (fun _ => UUID7.onesB16) UUID7.c9Clk 0 =
        none ∧
     UUID7.saveAt UUID7.c9Start (fun _ => UUID7.onesB16) UUID7.c9Clk 1 =
        some 6001) := by
  constructor
  · obtain ⟨f, rfl⟩ : ∃ f, fuel = f + 1 :=
      ⟨fuel - 1, (Nat.succ_pred_eq_of_pos hf).symm⟩
    have hc : ¬ clk 0 = 0 := by omega
    have hreg : ¬ (clk 0 + UUID7.REGRESSION_THRESHOLD_MS) % 2 ^ 64 <
        s.last_ts_ms := by
      unfold UUID7.REGRESSION_THRESHOLD_MS
      rw [Nat.mod_eq_of_lt hc64]
      omega
    have h2 : (2 : Nat) ^ 64 = 18446744073709551616 := by norm_num
    have hmod : (s.last_saved_ts_ms + s.save_interval_ms) %
        18446744073709551616 = s.last_saved_ts_ms + s.save_interval_ms :=
      Nat.mod_eq_of_lt (h2 ▸ hsum)
    have hcond : UUID7.saveCond { s with last_ts_ms := clk 0, b := ent 0 }
        (clk 0) ↔ s.last_saved_ts_ms + s.save_interval_ms < clk 0 := by
      unfold UUID7.saveCond
      simp [hs, hmod]
    rw [UUID7.generate_v7 ent clk (f + 1) hv]
    unfold UUID7.generateLoop
    rw [UUID7.generateBody_new_ms hz hc hreg hlt, UUID7.finish_spec]
    refine ⟨UUID7.finishState { s with last_ts_ms := clk 0, b := ent 0 }
      (clk 0), ?_, ?_⟩
    · by_cases hB : s.last_saved_ts_ms + s.save_interval_ms < clk 0 <;>
        simp [hB, hcond]
    · unfold UUID7.finishState
      by_cases hB : s.last_saved_ts_ms + s.save_interval_ms < clk 0 <;>
        simp [hB, hcond]
  · exact ⟨by decide, by decide, by decide, by decide⟩

/-- Witness for C9 at a concrete input (fresh generator with interval
1000, clock 6001: the save fires with argument 6001). -/
theorem c9_lazy_save_witness :
    ∃ s', UUID7.generate UUID7.c9Start (fun _ => UUID7.onesB16)
        (fun _ => 6001) 1 = some (true, s',
        if UUID7.c9Start.last_saved_ts_ms + UUID7.c9Start.save_interval_ms <
            6001 then some 6001 else none) ∧
      s'.last_saved_ts_ms =
        (if UUID7.c9Start.last_saved_ts_ms + UUID7.c9Start.save_interval_ms <
            6001 then 6001 else UUID7.c9Start.last_saved_ts_ms) :=
  (c9_lazy_save UUID7.c9Start (fun _ => UUID7.onesB16) (fun _ => 6001) 1
    (by decide) (by decide) (by decide) (by decide) (by decide) (by decide)
    (by decide)).1

set_option maxRecDepth 16000

namespace UUID7

/-- `hexval` inverts `hexDigit` on 4-bit values, upper or lower case. -/
theorem hexval_hexDigit_lt : ∀ (u : Bool), ∀ n < 16,
    hexval (hexDigit u n) = some n := by decide

/-- `hexval` inverts the high-nibble digit of a byte. -/
theorem hexval_hi (u : Bool) (m : Nat) :
    hexval (hexDigit u ((m >>> 4) &&& 15)) = some ((m >>> 4) &&& 15) :=
  hexval_hexDigit_lt u _ (and_15_lt _)

/-- `hexval` inverts the low-nibble digit of a byte. -/
theorem hexval_lo (u : Bool) (m : Nat) :
    hexval (hexDigit u (m &&& 15)) = some (m &&& 15) :=
  hexval_hexDigit_lt u _ (and_15_lt _)

/-- Reassembling the two hex nibbles of a byte gives the byte back. -/
theorem nibble_recompose : ∀ v < 256,
    (((v >>> 4) &&& 15) <<< 4) ||| (v &&& 15) = v := by decide

end UUID7

/-- C4: for every well-formed 16-byte identifier, every case choice and
both the dashed (36-char) and bare (32-char) encodings, `toString` into
a sufficiently large buffer succeeds and `parseFromString` of the
resulting text succeeds and reproduces exactly the original 16 bytes. -/
theorem c4_tostring_parse_roundtrip (x : UUID7.B16) (hx : UUID7.wfB x)
    (buflen : Nat) (u d : Bool)
    (hb : (if d then 37 else 33) ≤ buflen) :
    ∃ cs, UUID7.toString x buflen u d = some cs ∧
      UUID7.parseFromString cs = some x.toList := by
  obtain ⟨x0, x1, x2, x3, x4, x5, x6, x7, x8, x9, x10, x11, x12, x13,
    x14, x15⟩ := x
  simp only [UUID7.wfB, UUID7.B16.toList, List.mem_cons,
    List.not_mem_nil, or_false, forall_eq_or_imp, forall_eq] at hx
  obtain ⟨h0, h1, h2, h3, h4, h5, h6, h7, h8, h9, h10, h11, h12, h13,
    h14, h15⟩ := hx
  have htos : UUID7.toString
      ⟨x0, x1, x2, x3, x4, x5, x6, x7, x8, x9, x10, x11, x12, x13, x14, x15⟩
      buflen u d = some (UUID7.toStringLoop u d 0
        (UUID7.B16.toList ⟨x0, x1, x2, x3, x4, x5, x6, x7, x8, x9, x10,
          x11, x12, x13, x14, x15⟩)) := by
    unfold UUID7.toString
    rw [if_neg (by cases d <;> simp_all)]
  refine ⟨_, htos, ?_⟩
  cases d <;>
    simp [UUID7.B16.toList, UUID7.toStringLoop, UUID7.parseFromString,
      UUID7.parseLoop, UUID7.hexval_hi, UUID7.hexval_lo,
      UUID7.nibble_recompose x0 h0, UUID7.nibble_recompose x1 h1,
      UUID7.nibble_recompose x2 h2, UUID7.nibble_recompose x3 h3,
      UUID7.nibble_recompose x4 h4, UUID7.nibble_recompose x5 h5,
      UUID7.nibble_recompose x6 h6, UUID7.nibble_recompose x7 h7,
      UUID7.nibble_recompose x8 h8, UUID7.nibble_recompose x9 h9,
      UUID7.nibble_recompose x10 h10, UUID7.nibble_recompose x11 h11,
      UUID7.nibble_recompose x12 h12, UUID7.nibble_recompose x13 h13,
      UUID7.nibble_recompose x14 h14, UUID7.nibble_recompose x15 h15]

namespace UUID7

/-! ### Lexicographic order and base-256 digits -/

theorem lexLt_cons_same (a : Nat) (xs ys : List Nat) :
    lexLtBytes (a :: xs) (a :: ys) = lexLtBytes xs ys := by
  simp [lexLtBytes]

theorem lexLt_cons_lt {a b : Nat} (h : a < b) (xs ys : List Nat) :
    lexLtBytes (a :: xs) (b :: ys) = true := by
  simp [lexLtBytes, h]

/-- A strict prefix difference decides the order whatever follows. -/
theorem lexLt_append {xs ys : List Nat} (u v : List Nat)
    (h : lexLtBytes xs ys = true) (hl : xs.length = ys.length) :
    lexLtBytes (xs ++ u) (ys ++ v) = true := by
  induction xs generalizing ys with
  | nil =>
    cases ys with
    | nil => simp [lexLtBytes] at h
    | cons b bs => simp at hl
  | cons a as ih =>
    cases ys with
    | nil => simp at hl
    | cons b bs =>
      simp only [List.cons_append]
      by_cases hab : a < b
      · exact lexLt_cons_lt hab _ _
      · by_cases hba : b < a
        · rw [lexLtBytes] at h
          simp [hab, hba] at h
        · have hEq : a = b :=
            Nat.le_antisymm (Nat.not_lt.mp hba) (Nat.not_lt.mp hab)
          subst hEq
          rw [lexLt_cons_same] at h
          rw [lexLt_cons_same]
          exact ih h (by simpa using hl)

/-- `k` base-256 digits of `a`, most significant first. -/
def digitsBE : Nat → Nat → List Nat
  | 0, _ => []
  | k + 1, a => (a >>> (8 * k)) :: digitsBE k (a % 2 ^ (8 * k))

theorem digitsBE_length : ∀ k a, (digitsBE k a).length = k := by
  intro k
  induction k with
  | zero => intro a; rfl
  | succ n ih => intro a; simp [digitsBE, ih]

/-- Byte-lexicographic order of equal-width digit strings is numeric
order. -/
theorem lexLt_digitsBE : ∀ (k : Nat) {a b : Nat}, a < 2 ^ (8 * k) →
    b < 2 ^ (8 * k) → a < b →
    lexLtBytes (digitsBE k a) (digitsBE k b) = true := by
  intro k
  induction k with
  | zero =>
    intro a b ha hb hab
    simp only [Nat.mul_zero, pow_zero, Nat.lt_one_iff] at ha hb
    omega
  | succ k ih =>
    intro a b ha hb hab
    have hpos : 0 < 2 ^ (8 * k) := Nat.pos_pow_of_pos _ (by norm_num)
    rw [digitsBE, digitsBE, Nat.shiftRight_eq_div_pow,
      Nat.shiftRight_eq_div_pow]
    have hdiv : a / 2 ^ (8 * k) ≤ b / 2 ^ (8 * k) :=
      Nat.div_le_div_right (Nat.le_of_lt hab)
    rcases Nat.lt_or_ge (a / 2 ^ (8 * k)) (b / 2 ^ (8 * k)) with hlt | hge
    · exact lexLt_cons_lt hlt _ _
    · have heq : a / 2 ^ (8 * k) = b / 2 ^ (8 * k) :=
        Nat.le_antisymm hdiv hge
      rw [heq, lexLt_cons_same]
      apply ih (Nat.mod_lt _ hpos) (Nat.mod_lt _ hpos)
      have h1 := Nat.div_add_mod a (2 ^ (8 * k))
      have h2 := Nat.div_add_mod b (2 ^ (8 * k))
      rw [heq] at h1
      omega

/-- The 48-bit timestamp bytes written by the success epilogue are the
six base-256 digits of the timestamp. -/
theorem tsBytes_digits {ts : Nat} (h : ts < 2 ^ 48) :
    [(ts >>> 40) &&& 255, (ts >>> 32) &&& 255, (ts >>> 24) &&& 255,
     (ts >>> 16) &&& 255, (ts >>> 8) &&& 255, ts &&& 255] =
    digitsBE 6 ts := by
  have hd0 : ts / 1099511627776 % 256 = ts / 1099511627776 := by
    apply Nat.mod_eq_of_lt
    have : ts / 1099511627776 < 256 := by
      apply Nat.div_lt_of_lt_mul
      calc ts < 2 ^ 48 := h
        _ = 1099511627776 * 256 := by norm_num
    exact this
  have m1 : ts % 1099511627776 % 4294967296 = ts % 4294967296 :=
    Nat.mod_mod_of_dvd ts (by norm_num)
  have m2 : ts % 4294967296 % 16777216 = ts % 16777216 :=
    Nat.mod_mod_of_dvd ts (by norm_num)
  have m3 : ts % 16777216 % 65536 = ts % 65536 :=
    Nat.mod_mod_of_dvd ts (by norm_num)
  have m4 : ts % 65536 % 256 = ts % 256 :=
    Nat.mod_mod_of_dvd ts (by norm_num)
  have e1 : ts % 1099511627776 / 4294967296 = ts / 4294967296 % 256 := by
    have h' := Nat.mod_mul_right_div_self ts 4294967296 256
    norm_num at h'
    exact h'
  have e2 : ts % 4294967296 / 16777216 = ts / 16777216 % 256 := by
    have h' := Nat.mod_mul_right_div_self ts 16777216 256
    norm_num at h'
    exact h'
  have e3 : ts % 16777216 / 65536 = ts / 65536 % 256 := by
    have h' := Nat.mod_mul_right_div_self ts 65536 256
    norm_num at h'
    exact h'
  have e4 : ts % 65536 / 256 = ts / 256 % 256 := by
    have h' := Nat.mod_mul_right_div_self ts 256 256
    norm_num at h'
    exact h'
  simp only [digitsBE, Nat.shiftRight_eq_div_pow, and_255_eq_mod]
  norm_num [m1, m2, m3, m4, e1, e2, e3, e4, hd0]

/-! ### Byte facts for the increment chain -/

theorem byte_inc {x : Nat} (hx : x < 256) (h : ¬ (x + 1) % 256 = 0) :
    (x + 1) % 256 = x + 1 := by
  rcases Nat.lt_or_ge x 255 with h1 | h1
  · exact Nat.mod_eq_of_lt (by omega)
  · have hx255 : x = 255 := by omega
    subst hx255
    simp at h

theorem inc_lt (x : Nat) : (x + 1) % 256 < 256 := Nat.mod_lt _ (by norm_num)

theorem lor_lt_256 {a b : Nat} (ha : a < 256) (hb : b < 256) :
    a ||| b < 256 := by
  have h8 : (256 : Nat) = 2 ^ 8 := by norm_num
  rw [h8] at ha hb ⊢
  exact Nat.or_lt_two_pow ha hb

theorem and_192_lt (x : Nat) : x &&& 192 < 256 := by
  have h := Nat.and_lt_two_pow x (show (192 : Nat) < 2 ^ 8 by norm_num)
  norm_num at h
  exact h

theorem and_240_lt (x : Nat) : x &&& 240 < 256 := by
  have h := Nat.and_lt_two_pow x (show (240 : Nat) < 2 ^ 8 by norm_num)
  norm_num at h
  exact h

theorem n8_lt (x y : Nat) : ((x &&& 192) ||| (y &&& 63)) < 256 :=
  lor_lt_256 (and_192_lt x) (Nat.lt_trans (and_63_lt y) (by norm_num))

theorem n6_lt (x y : Nat) : ((x &&& 240) ||| (y &&& 15)) < 256 :=
  lor_lt_256 (and_240_lt x) (Nat.lt_trans (and_15_lt y) (by norm_num))

theorem b6_forced_lt (x : Nat) : ((x &&& 15) ||| 112) < 256 :=
  lor_lt_256 (Nat.lt_trans (and_15_lt x) (by norm_num)) (by norm_num)

theorem b6v4_forced_lt (x : Nat) : ((x &&& 15) ||| 64) < 256 :=
  lor_lt_256 (Nat.lt_trans (and_15_lt x) (by norm_num)) (by norm_num)

theorem b8_forced_lt (x : Nat) : ((x &&& 63) ||| 128) < 256 :=
  lor_lt_256 (Nat.lt_trans (and_63_lt x) (by norm_num)) (by norm_num)

/-- A byte with the version-7 nibble in place is unchanged by re-forcing
the nibble. -/
theorem nibble7_fixed : ∀ x < 256, x &&& 240 = 112 →
    ((x &&& 15) ||| 112) = x := by decide

/-- A byte with the RFC variant bits in place is unchanged by re-forcing
them. -/
theorem variant_fixed : ∀ x < 256, x &&& 192 = 128 →
    ((x &&& 63) ||| 128) = x := by decide

theorem nibble7_of_forced : ∀ z < 16, ((z ||| 112) &&& 240) = 112 := by
  decide

theorem variant_of_forced : ∀ z < 64, ((z ||| 128) &&& 192) = 128 := by
  decide

theorem b6_forced_nibble (x : Nat) : (((x &&& 15) ||| 112) &&& 240) = 112 :=
  nibble7_of_forced _ (and_15_lt x)

theorem b8_forced_variant (x : Nat) : (((x &&& 63) ||| 128) &&& 192) = 128 :=
  variant_of_forced _ (and_63_lt x)

/-- Incrementing byte 8 inside its 6 free bits and re-forcing the
variant adds exactly 1 when the 6-bit field does not overflow. -/
theorem b8_inc : ∀ x < 256, x &&& 192 = 128 →
    (((x &&& 63) + 1) % 256) &&& 64 = 0 →
    ((((x &&& 192) ||| ((((x &&& 63) + 1) % 256) &&& 63)) &&& 63) ||| 128) =
      x + 1 := by decide

/-- Incrementing byte 6 inside its low nibble and re-forcing the version
adds exactly 1 when the 4-bit field does not overflow. -/
theorem b6_inc : ∀ x < 256, x &&& 240 = 112 →
    (((x &&& 15) + 1) % 256) &&& 16 = 0 →
    ((((x &&& 240) ||| ((((x &&& 15) + 1) % 256) &&& 15)) &&& 15) ||| 112) =
      x + 1 := by decide

/-- `now_ms & 0xFFFFFFFFFFFF` is the identity below `2^48`. -/
theorem mask48_id {x : Nat} (h : x < 2 ^ 48) :
    x &&& 281474976710655 = x := by
  have h' := Nat.and_pow_two_sub_one_eq_mod x 48
  norm_num at h'
  rw [h']
  exact Nat.mod_eq_of_lt (by calc x < 2 ^ 48 := h
    _ = 281474976710656 := by norm_num)

/-! ### Invariants for the monotonicity proof -/

/-- Bytes 0-5 of the buffer hold the big-endian 48-bit image of
`last_ts_ms`. -/
def tsCoh (s : UUID7State) : Prop :=
  s.b.b0 = (s.last_ts_ms >>> 40) &&& 255 ∧
  s.b.b1 = (s.last_ts_ms >>> 32) &&& 255 ∧
  s.b.b2 = (s.last_ts_ms >>> 24) &&& 255 ∧
  s.b.b3 = (s.last_ts_ms >>> 16) &&& 255 ∧
  s.b.b4 = (s.last_ts_ms >>> 8) &&& 255 ∧
  s.b.b5 = s.last_ts_ms &&& 255

/-- Run invariant for the monotonicity claim (default-constructed V7
instance, FAIL_FAST). -/
def c1Pre (s : UUID7State) : Prop :=
  s.version = .v7 ∧ s.overflowPolicy = .failFast ∧ wfB s.b ∧
  s.last_ts_ms < 2 ^ 48 ∧ tsCoh s

/-- Version and variant bits present in the buffer (holds after every
successful V7 call). -/
def goodBits (s : UUID7State) : Prop :=
  s.b.b6 &&& 240 = 112 ∧ s.b.b8 &&& 192 = 128

instance (s : UUID7State) : Decidable (tsCoh s) := by
  unfold tsCoh; infer_instance

instance (s : UUID7State) : Decidable (c1Pre s) := by
  unfold c1Pre; infer_instance

instance (s : UUID7State) : Decidable (goodBits s) := by
  unfold goodBits; infer_instance

theorem lt64_and64 : ∀ z < 64, z &&& 64 = 0 := by decide

theorem lt64_and63 : ∀ z < 64, z &&& 63 = z := by decide

theorem lt16_and16 : ∀ z < 16, z &&& 16 = 0 := by decide

theorem lt16_and15 : ∀ z < 16, z &&& 15 = z := by decide

/-- Since bits 6-7 and bits 0-5 partition a byte, incrementing the low
6-bit field without overflow increments the byte. -/
theorem partition_inc8 : ∀ x < 256, x &&& 63 < 63 →
    (x &&& 192) ||| ((x &&& 63) + 1) = x + 1 := by decide

theorem partition_inc6 : ∀ x < 256, x &&& 15 < 15 →
    (x &&& 240) ||| ((x &&& 15) + 1) = x + 1 := by decide

theorem sat63_lt255 : ∀ x < 256, x &&& 63 < 63 → x < 255 := by decide

theorem sat15_lt255 : ∀ x < 256, x &&& 15 < 15 → x < 255 := by decide

/-- Full case analysis of `_nextRandom` on a well-formed buffer: the
lowest non-saturated position of the 74-bit field is incremented, all
positions below it wrap to zero, and the function reports overflow
exactly when the whole field is saturated. -/
theorem nextRandom_spec (b : B16) (hb : wfB b) :
    (b.b15 < 255 ∧ nextRandom b = ({ b with b15 := b.b15 + 1 }, false)) ∨
    (b.b15 = 255 ∧ b.b14 < 255 ∧
      nextRandom b = ({ b with b15 := 0, b14 := b.b14 + 1 }, false)) ∨
    (b.b15 = 255 ∧ b.b14 = 255 ∧ b.b13 < 255 ∧
      nextRandom b =
        ({ b with b15 := 0, b14 := 0, b13 := b.b13 + 1 }, false)) ∨
    (b.b15 = 255 ∧ b.b14 = 255 ∧ b.b13 = 255 ∧ b.b12 < 255 ∧
      nextRandom b =
        ({ b with b15 := 0, b14 := 0, b13 := 0, b12 := b.b12 + 1 },
          false)) ∨
    (b.b15 = 255 ∧ b.b14 = 255 ∧ b.b13 = 255 ∧ b.b12 = 255 ∧
      b.b11 < 255 ∧
      nextRandom b =
        ({ b with b15 := 0, b14 := 0, b13 := 0, b12 := 0, b11 := b.b11 + 1 }, false)) ∨
    (b.b15 = 255 ∧ b.b14 = 255 ∧ b.b13 = 255 ∧ b.b12 = 255 ∧
      b.b11 = 255 ∧ b.b10 < 255 ∧
      nextRandom b =
        ({ b with b15 := 0, b14 := 0, b13 := 0, b12 := 0, b11 := 0, b10 := b.b10 + 1 }, false)) ∨
    (b.b15 = 255 ∧ b.b14 = 255 ∧ b.b13 = 255 ∧ b.b12 = 255 ∧
      b.b11 = 255 ∧ b.b10 = 255 ∧ b.b9 < 255 ∧
      nextRandom b =
        ({ b with b15 := 0, b14 := 0, b13 := 0, b12 := 0, b11 := 0, b10 := 0, b9 := b.b9 + 1 }, false)) ∨
    (b.b15 = 255 ∧ b.b14 = 255 ∧ b.b13 = 255 ∧ b.b12 = 255 ∧
      b.b11 = 255 ∧ b.b10 = 255 ∧ b.b9 = 255 ∧ b.b8 &&& 63 < 63 ∧
      nextRandom b =
        ({ b with b15 := 0, b14 := 0, b13 := 0, b12 := 0, b11 := 0, b10 := 0, b9 := 0, b8 := b.b8 + 1 }, false)) ∨
    (b.b15 = 255 ∧ b.b14 = 255 ∧ b.b13 = 255 ∧ b.b12 = 255 ∧
      b.b11 = 255 ∧ b.b10 = 255 ∧ b.b9 = 255 ∧ b.b8 &&& 63 = 63 ∧
      b.b7 < 255 ∧
      nextRandom b =
        ({ b with b15 := 0, b14 := 0, b13 := 0, b12 := 0, b11 := 0, b10 := 0, b9 := 0, b8 := b.b8 &&& 192, b7 := b.b7 + 1 },
          false)) ∨
    (b.b15 = 255 ∧ b.b14 = 255 ∧ b.b13 = 255 ∧ b.b12 = 255 ∧
      b.b11 = 255 ∧ b.b10 = 255 ∧ b.b9 = 255 ∧ b.b8 &&& 63 = 63 ∧
      b.b7 = 255 ∧ b.b6 &&& 15 < 15 ∧
      nextRandom b =
        ({ b with b15 := 0, b14 := 0, b13 := 0, b12 := 0, b11 := 0, b10 := 0, b9 := 0, b8 := b.b8 &&& 192, b7 := 0, b6 := b.b6 + 1 }, false)) ∨
    (b.b15 = 255 ∧ b.b14 = 255 ∧ b.b13 = 255 ∧ b.b12 = 255 ∧
      b.b11 = 255 ∧ b.b10 = 255 ∧ b.b9 = 255 ∧ b.b8 &&& 63 = 63 ∧
      b.b7 = 255 ∧ b.b6 &&& 15 = 15 ∧
      nextRandom b =
        ({ b with b15 := 0, b14 := 0, b13 := 0, b12 := 0, b11 := 0, b10 := 0, b9 := 0, b8 := b.b8 &&& 192, b7 := 0, b6 := b.b6 &&& 240 }, true)) := by
  simp only [wfB, B16.toList, List.mem_cons, List.not_mem_nil, or_false,
    forall_eq_or_imp, forall_eq] at hb
  obtain ⟨h0, h1, h2, h3, h4, h5, h6, h7, h8, h9, h10, h11, h12, h13,
    h14, h15⟩ := hb
  have hsat : ∀ x : Nat, x < 256 → ¬ x < 255 → x = 255 := by omega
  by_cases c15 : b.b15 < 255
  · exact Or.inl ⟨c15, by
      simp [nextRandom, Nat.mod_eq_of_lt (show b.b15 + 1 < 256 by omega)]⟩
  have e15 := hsat _ h15 c15
  by_cases c14 : b.b14 < 255
  · refine Or.inr (Or.inl ⟨e15, c14, ?_⟩)
    simp [nextRandom, e15,
      Nat.mod_eq_of_lt (show b.b14 + 1 < 256 by omega)]
  have e14 := hsat _ h14 c14
  by_cases c13 : b.b13 < 255
  · refine Or.inr (Or.inr (Or.inl ⟨e15, e14, c13, ?_⟩))
    simp [nextRandom, e15, e14,
      Nat.mod_eq_of_lt (show b.b13 + 1 < 256 by omega)]
  have e13 := hsat _ h13 c13
  by_cases c12 : b.b12 < 255
  · refine Or.inr (Or.inr (Or.inr (Or.inl ⟨e15, e14, e13, c12, ?_⟩)))
    simp [nextRandom, e15, e14, e13,
      Nat.mod_eq_of_lt (show b.b12 + 1 < 256 by omega)]
  have e12 := hsat _ h12 c12
  by_cases c11 : b.b11 < 255
  · refine Or.inr (Or.inr (Or.inr (Or.inr (Or.inl
      ⟨e15, e14, e13, e12, c11, ?_⟩))))
    simp [nextRandom, e15, e14, e13, e12,
      Nat.mod_eq_of_lt (show b.b11 + 1 < 256 by omega)]
  have e11 := hsat _ h11 c11
  by_cases c10 : b.b10 < 255
  · refine Or.inr (Or.inr (Or.inr (Or.inr (Or.inr (Or.inl
      ⟨e15, e14, e13, e12, e11, c10, ?_⟩)))))
    simp [nextRandom, e15, e14, e13, e12, e11,
      Nat.mod_eq_of_lt (show b.b10 + 1 < 256 by omega)]
  have e10 := hsat _ h10 c10
  by_cases c9 : b.b9 < 255
  · refine Or.inr (Or.inr (Or.inr (Or.inr (Or.inr (Or.inr (Or.inl
      ⟨e15, e14, e13, e12, e11, e10, c9, ?_⟩))))))
    simp [nextRandom, e15, e14, e13, e12, e11, e10,
      Nat.mod_eq_of_lt (show b.b9 + 1 < 256 by omega)]
  have e9 := hsat _ h9 c9
  by_cases c8 : b.b8 &&& 63 < 63
  · refine Or.inr (Or.inr (Or.inr (Or.inr (Or.inr (Or.inr (Or.inr
      (Or.inl ⟨e15, e14, e13, e12, e11, e10, e9, c8, ?_⟩)))))))
    have ht8 : ((b.b8 &&& 63) + 1) % 256 = (b.b8 &&& 63) + 1 :=
      Nat.mod_eq_of_lt (by omega)
    have ha64 : ((b.b8 &&& 63) + 1) &&& 64 = 0 := lt64_and64 _ (by omega)
    have ha63 : ((b.b8 &&& 63) + 1) &&& 63 = (b.b8 &&& 63) + 1 :=
      lt64_and63 _ (by omega)
    simp [nextRandom, e15, e14, e13, e12, e11, e10, e9, ht8, ha64, ha63,
      partition_inc8 _ h8 c8]
  have e8 : b.b8 &&& 63 = 63 := by have := and_63_lt b.b8; omega
  by_cases c7 : b.b7 < 255
  · refine Or.inr (Or.inr (Or.inr (Or.inr (Or.inr (Or.inr (Or.inr
      (Or.inr (Or.inl ⟨e15, e14, e13, e12, e11, e10, e9, e8, c7, ?_⟩))))))))
    simp [nextRandom, e15, e14, e13, e12, e11, e10, e9, e8,
      Nat.mod_eq_of_lt (show b.b7 + 1 < 256 by omega),
      (show (64 : Nat) &&& 63 = 0 by decide), Nat.or_zero]
  have e7 := hsat _ h7 c7
  by_cases c6 : b.b6 &&& 15 < 15
  · refine Or.inr (Or.inr (Or.inr (Or.inr (Or.inr (Or.inr (Or.inr
      (Or.inr (Or.inr (Or.inl
        ⟨e15, e14, e13, e12, e11, e10, e9, e8, e7, c6, ?_⟩)))))))))
    have ht6 : ((b.b6 &&& 15) + 1) % 256 = (b.b6 &&& 15) + 1 :=
      Nat.mod_eq_of_lt (by omega)
    have ha16 : ((b.b6 &&& 15) + 1) &&& 16 = 0 := lt16_and16 _ (by omega)
    have ha15 : ((b.b6 &&& 15) + 1) &&& 15 = (b.b6 &&& 15) + 1 :=
      lt16_and15 _ (by omega)
    simp [nextRandom, e15, e14, e13, e12, e11, e10, e9, e8, e7, ht6,
      ha16, ha15, partition_inc6 _ h6 c6,
      (show (64 : Nat) &&& 63 = 0 by decide), Nat.or_zero]
  have e6 : b.b6 &&& 15 = 15 := by have := and_15_lt b.b6; omega
  refine Or.inr (Or.inr (Or.inr (Or.inr (Or.inr (Or.inr (Or.inr (Or.inr
    (Or.inr (Or.inr ⟨e15, e14, e13, e12, e11, e10, e9, e8, e7, e6, ?_⟩)))))))))
  simp [nextRandom, e15, e14, e13, e12, e11, e10, e9, e8, e7, e6,
    (show (64 : Nat) &&& 63 = 0 by decide),
    (show (16 : Nat) &&& 15 = 0 by decide), Nat.or_zero]

/-- Well-formedness as an explicit conjunction of byte bounds. -/
theorem wfB_iff (b : B16) : wfB b ↔
    (b.b0 < 256 ∧ b.b1 < 256 ∧ b.b2 < 256 ∧ b.b3 < 256 ∧ b.b4 < 256 ∧
     b.b5 < 256 ∧ b.b6 < 256 ∧ b.b7 < 256 ∧ b.b8 < 256 ∧ b.b9 < 256 ∧
     b.b10 < 256 ∧ b.b11 < 256 ∧ b.b12 < 256 ∧ b.b13 < 256 ∧
     b.b14 < 256 ∧ b.b15 < 256) := by
  simp [wfB, B16.toList, List.mem_cons, List.not_mem_nil, or_false,
    forall_eq_or_imp, forall_eq]

/-- `_nextRandom` keeps every byte a byte. -/
theorem nextRandom_wf {b : B16} (hb : wfB b) : wfB (nextRandom b).1 := by
  have hbb := (wfB_iff b).mp hb
  have ha192 := and_192_lt b.b8
  have ha240 := and_240_lt b.b6
  rcases nextRandom_spec b hb with ⟨c, he⟩ | ⟨_, c, he⟩ | ⟨_, _, c, he⟩ |
    ⟨_, _, _, c, he⟩ | ⟨_, _, _, _, c, he⟩ | ⟨_, _, _, _, _, c, he⟩ |
    ⟨_, _, _, _, _, _, c, he⟩ | ⟨_, _, _, _, _, _, _, c, he⟩ |
    ⟨_, _, _, _, _, _, _, _, c, he⟩ |
    ⟨_, _, _, _, _, _, _, _, _, c, he⟩ |
    ⟨_, _, _, _, _, _, _, _, _, _, he⟩
  · rw [he, wfB_iff]; dsimp only; omega
  · rw [he, wfB_iff]; dsimp only; omega
  · rw [he, wfB_iff]; dsimp only; omega
  · rw [he, wfB_iff]; dsimp only; omega
  · rw [he, wfB_iff]; dsimp only; omega
  · rw [he, wfB_iff]; dsimp only; omega
  · rw [he, wfB_iff]; dsimp only; omega
  · have hc := sat63_lt255 b.b8 (by omega) c
    rw [he, wfB_iff]; dsimp only; omega
  · rw [he, wfB_iff]; dsimp only; omega
  · have hc := sat15_lt255 b.b6 (by omega) c
    rw [he, wfB_iff]; dsimp only; omega
  · rw [he, wfB_iff]; dsimp only; omega

/-- `_nextRandom` never touches the six timestamp bytes. -/
theorem nextRandom_prefix {b : B16} (hb : wfB b) :
    (nextRandom b).1.b0 = b.b0 ∧ (nextRandom b).1.b1 = b.b1 ∧
    (nextRandom b).1.b2 = b.b2 ∧ (nextRandom b).1.b3 = b.b3 ∧
    (nextRandom b).1.b4 = b.b4 ∧ (nextRandom b).1.b5 = b.b5 := by
  rcases nextRandom_spec b hb with ⟨_, he⟩ | ⟨_, _, he⟩ | ⟨_, _, _, he⟩ |
    ⟨_, _, _, _, he⟩ | ⟨_, _, _, _, _, he⟩ | ⟨_, _, _, _, _, _, he⟩ |
    ⟨_, _, _, _, _, _, _, he⟩ | ⟨_, _, _, _, _, _, _, _, he⟩ |
    ⟨_, _, _, _, _, _, _, _, _, he⟩ |
    ⟨_, _, _, _, _, _, _, _, _, _, he⟩ |
    ⟨_, _, _, _, _, _, _, _, _, _, he⟩ <;>
  rw [he] <;> exact ⟨rfl, rfl, rfl, rfl, rfl, rfl⟩

/-- The success epilogue applied to a state whose `last_ts_ms` is the
epilogue timestamp yields an invariant-preserving, bit-correct state. -/
theorem finishState_props {t : UUID7State} (hv : t.version = .v7)
    (hp : t.overflowPolicy = .failFast) (hwf : wfB t.b)
    (hts : t.last_ts_ms < 2 ^ 48) :
    c1Pre (finishState t t.last_ts_ms) ∧
    (finishState t t.last_ts_ms).last_ts_ms = t.last_ts_ms ∧
    goodBits (finishState t t.last_ts_ms) := by
  have hbb := (wfB_iff t.b).mp hwf
  have hmask := mask48_id hts
  have hb6lt := b6_forced_lt t.b.b6
  have hb8lt := b8_forced_lt t.b.b8
  have ha0 := and_255_lt ((t.last_ts_ms &&& 281474976710655) >>> 40)
  have ha1 := and_255_lt ((t.last_ts_ms &&& 281474976710655) >>> 32)
  have ha2 := and_255_lt ((t.last_ts_ms &&& 281474976710655) >>> 24)
  have ha3 := and_255_lt ((t.last_ts_ms &&& 281474976710655) >>> 16)
  have ha4 := and_255_lt ((t.last_ts_ms &&& 281474976710655) >>> 8)
  have ha5 := and_255_lt (t.last_ts_ms &&& 281474976710655)
  refine ⟨⟨?_, ?_, ?_, ?_, ?_⟩, ?_, ?_, ?_⟩
  · simpa [finishState] using hv
  · simpa [finishState] using hp
  · rw [wfB_iff]
    unfold finishState
    dsimp only
    rw [hv]
    refine ⟨ha0, ha1, ha2, ha3, ha4, ha5, ?_, ?_, ?_, ?_, ?_, ?_, ?_,
      ?_, ?_, ?_⟩ <;> first
      | exact hb6lt
      | exact hb8lt
      | omega
  · simpa [finishState] using hts
  · unfold tsCoh finishState
    dsimp only
    rw [hmask]
    exact ⟨rfl, rfl, rfl, rfl, rfl, rfl⟩
  · simp [finishState]
  · show (finishState t t.last_ts_ms).b.b6 &&& 240 = 112
    unfold finishState
    dsimp only
    rw [hv]
    exact b6_forced_nibble _
  · show (finishState t t.last_ts_ms).b.b8 &&& 192 = 128
    unfold finishState
    dsimp only
    exact b8_forced_variant _

/-- One FAIL_FAST V7 iteration preserves the run invariant, never
decreases and never overtakes the clock, and on success establishes the
version/variant bits. -/
theorem body_step_inv {s : UUID7State} {e : B16} {now : Nat}
    (hpre : c1Pre s) (hwe : wfB e) (hle : s.last_ts_ms ≤ now)
    (h48 : now < 2 ^ 48) (hn0 : ¬ now = 0) {ok : Bool} {s' : UUID7State}
    {sv : Option Nat} (h : generateBody s false e now = .ret ok s' sv) :
    c1Pre s' ∧ s.last_ts_ms ≤ s'.last_ts_ms ∧ s'.last_ts_ms ≤ now ∧
    (ok = true → goodBits s') := by
  obtain ⟨hv, hp, hwf, hts, hcoh⟩ := hpre
  have hregF : ¬ (now + REGRESSION_THRESHOLD_MS) % 2 ^ 64 < s.last_ts_ms := by
    unfold REGRESSION_THRESHOLD_MS
    rw [Nat.mod_eq_of_lt (show now + 10000 < 2 ^ 64 by
      calc now + 10000 < 2 ^ 48 + 10000 := by omega
        _ < 2 ^ 64 := by norm_num)]
    omega
  unfold generateBody at h
  by_cases hz : orAll e = 0
  · -- all-zero entropy: state untouched
    rw [if_pos hz] at h
    rw [BodyRes.ret.injEq] at h
    obtain ⟨hok, hs, -⟩ := h
    subst hs
    exact ⟨⟨hv, hp, hwf, hts, hcoh⟩, Nat.le_refl _, hle,
      fun ht => absurd (hok.trans ht) (by simp)⟩
  rw [if_neg hz, if_neg hn0, if_neg hregF] at h
  by_cases hlt : s.last_ts_ms < now
  · -- new millisecond
    rw [if_pos hlt, finish_spec, BodyRes.ret.injEq] at h
    obtain ⟨-, hs, -⟩ := h
    have hprops := finishState_props (t := { s with last_ts_ms := now, b := e })
      hv hp hwe h48
    subst hs
    refine ⟨hprops.1, ?_, ?_, fun _ => hprops.2.2⟩
    · rw [hprops.2.1]; exact hle
    · rw [hprops.2.1]
  · -- same or earlier millisecond (equal, by the clock hypothesis)
    have hnow : now = s.last_ts_ms := by omega
    rw [if_neg hlt, if_neg (show ¬ (false = true) by simp)] at h
    by_cases hinit : ¬ s.b.b6 &&& 240 = 112
    · -- uninitialized: seed from fresh entropy
      rw [if_pos hinit, finish_spec, BodyRes.ret.injEq] at h
      obtain ⟨-, hs, -⟩ := h
      have hprops := finishState_props (t := { s with b := e }) hv hp hwe hts
      subst hs
      subst hnow
      exact ⟨hprops.1, by rw [hprops.2.1], by rw [hprops.2.1],
        fun _ => hprops.2.2⟩
    · -- initialized: increment the random field
      rw [if_neg hinit] at h
      cases hnr : nextRandom s.b with
      | mk b' ovfl =>
        rw [hnr] at h
        have hwfb' : wfB b' := by
          have hh := nextRandom_wf hwf
          rw [hnr] at hh
          exact hh
        have hpref := nextRandom_prefix hwf
        rw [hnr] at hpref
        dsimp only at hpref
        cases ovfl with
        | true =>
          dsimp only at h
          rw [overflowExit_failFast (s := { s with b := b' }) hp,
            BodyRes.ret.injEq] at h
          obtain ⟨hok, hs, -⟩ := h
          subst hs
          refine ⟨⟨hv, hp, hwfb', hts, ?_⟩, Nat.le_refl _, hle,
            fun ht => absurd (hok.trans ht) (by simp)⟩
          obtain ⟨p0, p1, p2, p3, p4, p5⟩ := hpref
          obtain ⟨q0, q1, q2, q3, q4, q5⟩ := hcoh
          exact ⟨p0.trans q0, p1.trans q1, p2.trans q2, p3.trans q3,
            p4.trans q4, p5.trans q5⟩
        | false =>
          dsimp only at h
          rw [finish_spec, BodyRes.ret.injEq] at h
          obtain ⟨-, hs, -⟩ := h
          have hprops := finishState_props (t := { s with b := b' })
            hv hp hwfb' hts
          subst hs
          subst hnow
          exact ⟨hprops.1, by rw [hprops.2.1], by rw [hprops.2.1],
            fun _ => hprops.2.2⟩

theorem b8_inc' : ∀ x < 256, x &&& 192 = 128 → x &&& 63 < 63 →
    (((x + 1) &&& 63) ||| 128) = x + 1 := by decide

theorem b6_inc' : ∀ x < 256, x &&& 240 = 112 → x &&& 15 < 15 →
    (((x + 1) &&& 15) ||| 112) = x + 1 := by decide

/-- The buffer written by a same-millisecond success, as a list: the six
timestamp bytes are unchanged and the version/variant bits are
re-forced over the incremented field. -/
theorem finishState_same_ms_bytes {s : UUID7State} (b' : B16)
    (hv : s.version = .v7) (hts : s.last_ts_ms < 2 ^ 48) (hcoh : tsCoh s) :
    (finishState { s with b := b' } s.last_ts_ms).b.toList =
      [s.b.b0, s.b.b1, s.b.b2, s.b.b3, s.b.b4, s.b.b5,
       (b'.b6 &&& 15) ||| 112, b'.b7, (b'.b8 &&& 63) ||| 128,
       b'.b9, b'.b10, b'.b11, b'.b12, b'.b13, b'.b14, b'.b15] := by
  obtain ⟨q0, q1, q2, q3, q4, q5⟩ := hcoh
  unfold finishState B16.toList
  dsimp only
  rw [mask48_id hts, hv]
  rw [show UUIDVersion.v7.val <<< 4 = 112 from by decide]
  rw [← q0, ← q1, ← q2, ← q3, ← q4, ← q5]

/-- On success from a bit-correct state, one FAIL_FAST V7 iteration
strictly increases the identifier in byte-lexicographic order. -/
theorem body_step_lex {s : UUID7State} {e : B16} {now : Nat}
    (hpre : c1Pre s) (hg : goodBits s) (_hwe : wfB e)
    (hle : s.last_ts_ms ≤ now) (h48 : now < 2 ^ 48) (hn0 : ¬ now = 0)
    {s' : UUID7State} {sv : Option Nat}
    (h : generateBody s false e now = .ret true s' sv) :
    lexLtBytes s.b.toList s'.b.toList = true := by
  obtain ⟨hv, hp, hwf, hts, hcoh⟩ := hpre
  obtain ⟨hnib, hvar⟩ := hg
  have hbb := (wfB_iff s.b).mp hwf
  have hregF : ¬ (now + REGRESSION_THRESHOLD_MS) % 2 ^ 64 < s.last_ts_ms := by
    unfold REGRESSION_THRESHOLD_MS
    rw [Nat.mod_eq_of_lt (show now + 10000 < 2 ^ 64 by
      calc now + 10000 < 2 ^ 48 + 10000 := by omega
        _ < 2 ^ 64 := by norm_num)]
    omega
  unfold generateBody at h
  by_cases hz : orAll e = 0
  · rw [if_pos hz] at h
    simp at h
  rw [if_neg hz, if_neg hn0, if_neg hregF] at h
  by_cases hlt : s.last_ts_ms < now
  · -- new millisecond: the timestamp prefix strictly increases
    rw [if_pos hlt, finish_spec, BodyRes.ret.injEq] at h
    obtain ⟨-, hs, -⟩ := h
    subst hs
    have hL : s.b.toList = digitsBE 6 s.last_ts_ms ++
        [s.b.b6, s.b.b7, s.b.b8, s.b.b9, s.b.b10, s.b.b11, s.b.b12,
         s.b.b13, s.b.b14, s.b.b15] := by
      rw [← tsBytes_digits hts]
      obtain ⟨q0, q1, q2, q3, q4, q5⟩ := hcoh
      simp [B16.toList, q0, q1, q2, q3, q4, q5]
    have hR : (finishState { s with last_ts_ms := now, b := e }
        now).b.toList = digitsBE 6 now ++
        [(e.b6 &&& 15) ||| (s.version.val <<< 4), e.b7,
         (e.b8 &&& 63) ||| 128, e.b9, e.b10, e.b11, e.b12, e.b13,
         e.b14, e.b15] := by
      rw [← tsBytes_digits h48]
      unfold finishState B16.toList
      dsimp only
      rw [mask48_id h48]
      simp
    rw [hL, hR]
    exact lexLt_append _ _ (lexLt_digitsBE 6 hts h48 hlt)
      (by simp [digitsBE_length])
  · -- same millisecond: the 74-bit field increments
    have hnow : now = s.last_ts_ms := by omega
    rw [if_neg hlt, if_neg (show ¬ (false = true) by simp),
      if_neg (not_not_intro hnib)] at h
    rcases nextRandom_spec s.b hwf with ⟨c, he⟩ | ⟨r1, c, he⟩ |
      ⟨r1, r2, c, he⟩ | ⟨r1, r2, r3, c, he⟩ | ⟨r1, r2, r3, r4, c, he⟩ |
      ⟨r1, r2, r3, r4, r5, c, he⟩ | ⟨r1, r2, r3, r4, r5, r6, c, he⟩ |
      ⟨r1, r2, r3, r4, r5, r6, r7, c, he⟩ |
      ⟨r1, r2, r3, r4, r5, r6, r7, r8, c, he⟩ |
      ⟨r1, r2, r3, r4, r5, r6, r7, r8, r9, c, he⟩ |
      ⟨r1, r2, r3, r4, r5, r6, r7, r8, r9, r10, he⟩ <;>
      rw [he] at h <;> dsimp only at h
    · -- byte 15 increments
      rw [finish_spec, BodyRes.ret.injEq] at h
      obtain ⟨-, hs, -⟩ := h
      subst hs
      rw [finishState_same_ms_bytes _ hv hts hcoh]
      dsimp only
      rw [nibble7_fixed _ hbb.2.2.2.2.2.2.1 hnib,
        variant_fixed _ hbb.2.2.2.2.2.2.2.2.1 hvar]
      simp only [B16.toList, lexLt_cons_same]
      exact lexLt_cons_lt (by omega) _ _
    · -- carry into byte 14
      rw [finish_spec, BodyRes.ret.injEq] at h
      obtain ⟨-, hs, -⟩ := h
      subst hs
      rw [finishState_same_ms_bytes _ hv hts hcoh]
      dsimp only
      rw [nibble7_fixed _ hbb.2.2.2.2.2.2.1 hnib,
        variant_fixed _ hbb.2.2.2.2.2.2.2.2.1 hvar]
      simp only [B16.toList, lexLt_cons_same]
      exact lexLt_cons_lt (by omega) _ _
    · -- carry into byte 13
      rw [finish_spec, BodyRes.ret.injEq] at h
      obtain ⟨-, hs, -⟩ := h
      subst hs
      rw [finishState_same_ms_bytes _ hv hts hcoh]
      dsimp only
      rw [nibble7_fixed _ hbb.2.2.2.2.2.2.1 hnib,
        variant_fixed _ hbb.2.2.2.2.2.2.2.2.1 hvar]
      simp only [B16.toList, lexLt_cons_same]
      exact lexLt_cons_lt (by omega) _ _
    · -- carry into byte 12
      rw [finish_spec, BodyRes.ret.injEq] at h
      obtain ⟨-, hs, -⟩ := h
      subst hs
      rw [finishState_same_ms_bytes _ hv hts hcoh]
      dsimp only
      rw [nibble7_fixed _ hbb.2.2.2.2.2.2.1 hnib,
        variant_fixed _ hbb.2.2.2.2.2.2.2.2.1 hvar]
      simp only [B16.toList, lexLt_cons_same]
      exact lexLt_cons_lt (by omega) _ _
    · -- carry into byte 11
      rw [finish_spec, BodyRes.ret.injEq] at h
      obtain ⟨-, hs, -⟩ := h
      subst hs
      rw [finishState_same_ms_bytes _ hv hts hcoh]
      dsimp only
      rw [nibble7_fixed _ hbb.2.2.2.2.2.2.1 hnib,
        variant_fixed _ hbb.2.2.2.2.2.2.2.2.1 hvar]
      simp only [B16.toList, lexLt_cons_same]
      exact lexLt_cons_lt (by omega) _ _
    · -- carry into byte 10
      rw [finish_spec, BodyRes.ret.injEq] at h
      obtain ⟨-, hs, -⟩ := h
      subst hs
      rw [finishState_same_ms_bytes _ hv hts hcoh]
      dsimp only
      rw [nibble7_fixed _ hbb.2.2.2.2.2.2.1 hnib,
        variant_fixed _ hbb.2.2.2.2.2.2.2.2.1 hvar]
      simp only [B16.toList, lexLt_cons_same]
      exact lexLt_cons_lt (by omega) _ _
    · -- carry into byte 9
      rw [finish_spec, BodyRes.ret.injEq] at h
      obtain ⟨-, hs, -⟩ := h
      subst hs
      rw [finishState_same_ms_bytes _ hv hts hcoh]
      dsimp only
      rw [nibble7_fixed _ hbb.2.2.2.2.2.2.1 hnib,
        variant_fixed _ hbb.2.2.2.2.2.2.2.2.1 hvar]
      simp only [B16.toList, lexLt_cons_same]
      exact lexLt_cons_lt (by omega) _ _
    · -- carry into byte 8 (inside its 6 free bits)
      rw [finish_spec, BodyRes.ret.injEq] at h
      obtain ⟨-, hs, -⟩ := h
      subst hs
      rw [finishState_same_ms_bytes _ hv hts hcoh]
      dsimp only
      rw [nibble7_fixed _ hbb.2.2.2.2.2.2.1 hnib,
        b8_inc' _ hbb.2.2.2.2.2.2.2.2.1 hvar c]
      simp only [B16.toList, lexLt_cons_same]
      exact lexLt_cons_lt (by omega) _ _
    · -- carry into byte 7
      rw [finish_spec, BodyRes.ret.injEq] at h
      obtain ⟨-, hs, -⟩ := h
      subst hs
      rw [finishState_same_ms_bytes _ hv hts hcoh]
      dsimp only
      rw [nibble7_fixed _ hbb.2.2.2.2.2.2.1 hnib]
      simp only [B16.toList, lexLt_cons_same]
      exact lexLt_cons_lt (by omega) _ _
    · -- carry into byte 6 (inside its low nibble)
      rw [finish_spec, BodyRes.ret.injEq] at h
      obtain ⟨-, hs, -⟩ := h
      subst hs
      rw [finishState_same_ms_bytes _ hv hts hcoh]
      dsimp only
      rw [b6_inc' _ hbb.2.2.2.2.2.2.1 hnib c]
      simp only [B16.toList, lexLt_cons_same]
      exact lexLt_cons_lt (by omega) _ _
    · -- full overflow: the call fails, contradicting success
      exact absurd h (overflowExit_ne_ret_true _ _ _)

/-- Under FAIL_FAST a loop iteration never continues. -/
theorem generateBody_no_cont {s : UUID7State} {ovf : Bool} {e : B16}
    {now0 : Nat} {s₂ : UUID7State} (hp : s.overflowPolicy = .failFast)
    (h : generateBody s ovf e now0 = .cont s₂) : False := by
  unfold generateBody at h
  by_cases hz : orAll e = 0
  · rw [if_pos hz] at h; simp at h
  rw [if_neg hz] at h
  by_cases hc : now0 = 0
  · rw [if_pos hc] at h; simp at h
  rw [if_neg hc] at h
  by_cases hreg : (now0 + REGRESSION_THRESHOLD_MS) % 2 ^ 64 < s.last_ts_ms
  · rw [if_pos hreg] at h; simp at h
  rw [if_neg hreg] at h
  by_cases hlt : s.last_ts_ms < now0
  · rw [if_pos hlt, finish_spec] at h; simp at h
  rw [if_neg hlt] at h
  cases ovf with
  | true =>
    rw [if_pos rfl, overflowExit_failFast hp] at h
    simp at h
  | false =>
    rw [if_neg (show ¬ (false = true) by simp)] at h
    by_cases hinit : ¬ s.b.b6 &&& 240 = 112
    · rw [if_pos hinit, finish_spec] at h; simp at h
    · rw [if_neg hinit] at h
      cases hnr : nextRandom s.b with
      | mk b' fl =>
        rw [hnr] at h
        cases fl with
        | true =>
          dsimp only at h
          rw [overflowExit_failFast (s := { s with b := b' }) hp] at h
          simp at h
        | false =>
          dsimp only at h
          rw [finish_spec] at h
          simp at h

/-- With FAIL_FAST, one unit of fuel always settles a V7 `generate`
call, and the result is the single loop iteration's. -/
theorem generate_one_failFast {s : UUID7State} (e : B16) (now : Nat)
    (hv : s.version = .v7) (hp : s.overflowPolicy = .failFast) :
    ∃ ok s' sv, generateBody s false e now = .ret ok s' sv ∧
      generate s (fun _ => e) (fun _ => now) 1 = some (ok, s', sv) := by
  cases hb : generateBody s false e now with
  | ret ok s' sv =>
    refine ⟨ok, s', sv, rfl, ?_⟩
    rw [generate_v7 _ _ _ hv]
    unfold generateLoop
    rw [show generateBody s false ((fun _ : Nat => e) 0)
      ((fun _ : Nat => now) 0) = generateBody s false e now from rfl, hb]
  | cont s₂ => exact absurd hb (fun hh => generateBody_no_cont hp hh)

/-- The run invariant holds along every run of a fresh V7 generator with
an injected byte-valued entropy source and a non-decreasing, nonzero,
48-bit clock. -/
theorem c1_run_inv (ent : Nat → B16) (clk : Nat → Nat)
    (hwe : ∀ i, wfB (ent i)) (h0 : ∀ i, ¬ clk i = 0)
    (hmono : ∀ i, clk i ≤ clk (i + 1)) (h48 : ∀ i, clk i < 2 ^ 48) :
    ∀ n, c1Pre (runFrom initState ent clk n) ∧
      (runFrom initState ent clk n).last_ts_ms ≤ clk n := by
  intro n
  induction n with
  | zero => exact ⟨show c1Pre initState by decide, Nat.zero_le _⟩
  | succ n ih =>
    obtain ⟨hpre, hle⟩ := ih
    obtain ⟨ok, s', sv, hbody, hgen⟩ :=
      generate_one_failFast (ent n) (clk n) hpre.1 hpre.2.1
    have hstep := body_step_inv hpre (hwe n) hle (h48 n) (h0 n) hbody
    have hrun : runFrom initState ent clk (n + 1) = s' := by
      unfold runFrom
      rw [hgen]
    rw [hrun]
    exact ⟨hstep.1, Nat.le_trans hstep.2.2.1 (hmono n)⟩

end UUID7

/-- C1 counterexample: the claim as stated fails at the 48-bit
timestamp boundary.  With the non-decreasing, never-zero clock
`2^48 - 1` then `2^48`, both calls succeed, but the second identifier
is byte-lexicographically smaller (its truncated timestamp field wraps
to zero), not larger. -/
theorem c1_counterexample :
    ((2 ^ 48 - 1 : Nat) ≤ 2 ^ 48 ∧ (2 ^ 48 - 1 : Nat) ≠ 0 ∧
      (2 ^ 48 : Nat) ≠ 0) ∧
    UUID7.okAt UUID7.initState (fun _ => UUID7.onesB16)
      (fun n => if n = 0 then 2 ^ 48 - 1 else 2 ^ 48) 0 = true ∧
    UUID7.okAt UUID7.initState (fun _ => UUID7.onesB16)
      (fun n => if n = 0 then 2 ^ 48 - 1 else 2 ^ 48) 1 = true ∧
    UUID7.lexLtBytes
      (UUID7.idAt UUID7.initState (fun _ => UUID7.onesB16)
        (fun n => if n = 0 then 2 ^ 48 - 1 else 2 ^ 48) 0)
      (UUID7.idAt UUID7.initState (fun _ => UUID7.onesB16)
        (fun n => if n = 0 then 2 ^ 48 - 1 else 2 ^ 48) 1) = false ∧
    UUID7.lexLtBytes
      (UUID7.idAt UUID7.initState (fun _ => UUID7.onesB16)
        (fun n => if n = 0 then 2 ^ 48 - 1 else 2 ^ 48) 1)
      (UUID7.idAt UUID7.initState (fun _ => UUID7.onesB16)
        (fun n => if n = 0 then 2 ^ 48 - 1 else 2 ^ 48) 0) = true := by
  refine ⟨⟨by norm_num, by norm_num, by norm_num⟩, ?_, ?_, ?_, ?_⟩ <;> decide

/-- C1 (amended): for a fresh (default-constructed, Version-7,
FAIL_FAST) generator, an injected entropy source delivering bytes, and
an injected clock whose successive readings are non-decreasing, never 0,
and below `2^48`, every two consecutive `generate()` calls that both
succeed produce identifiers that are strictly increasing in
byte-lexicographic order (no major regression can occur under such a
clock). -/
theorem c1_monotonic_lex_amended (ent : Nat → UUID7.B16)
    (clk : Nat → Nat) (hwe : ∀ i, UUID7.wfB (ent i))
    (h0 : ∀ i, ¬ clk i = 0) (hmono : ∀ i, clk i ≤ clk (i + 1))
    (h48 : ∀ i, clk i < 2 ^ 48) (n : Nat)
    (hok1 : UUID7.okAt UUID7.initState ent clk n = true)
    (hok2 : UUID7.okAt UUID7.initState ent clk (n + 1) = true) :
    UUID7.lexLtBytes (UUID7.idAt UUID7.initState ent clk n)
      (UUID7.idAt UUID7.initState ent clk (n + 1)) = true := by
  obtain ⟨hpreN, hleN⟩ := UUID7.c1_run_inv ent clk hwe h0 hmono h48 n
  obtain ⟨hpreN1, hleN1⟩ := UUID7.c1_run_inv ent clk hwe h0 hmono h48 (n + 1)
  obtain ⟨ok, s', sv, hbody, hgen⟩ :=
    UUID7.generate_one_failFast (ent n) (clk n) hpreN.1 hpreN.2.1
  have hrun : UUID7.runFrom UUID7.initState ent clk (n + 1) = s' := by
    unfold UUID7.runFrom
    rw [hgen]
  have hokeq : ok = true := by
    unfold UUID7.okAt at hok1
    rw [hgen] at hok1
    exact hok1
  have hgb : UUID7.goodBits (UUID7.runFrom UUID7.initState ent clk (n + 1)) := by
    rw [hrun]
    exact (UUID7.body_step_inv hpreN (hwe n) hleN (h48 n) (h0 n)
      hbody).2.2.2 hokeq
  obtain ⟨ok2, s'', sv2, hbody2, hgen2⟩ :=
    UUID7.generate_one_failFast (ent (n + 1)) (clk (n + 1)) hpreN1.1
      hpreN1.2.1
  have hok2eq : ok2 = true := by
    unfold UUID7.okAt at hok2
    rw [hgen2] at hok2
    exact hok2
  have hrun2 : UUID7.runFrom UUID7.initState ent clk (n + 1 + 1) = s'' := by
    unfold UUID7.runFrom
    rw [hgen2]
  have hlex := UUID7.body_step_lex hpreN1 hgb (hwe (n + 1)) hleN1
    (h48 (n + 1)) (h0 (n + 1)) (hok2eq ▸ hbody2)
  unfold UUID7.idAt
  rw [hrun, hrun2]
  rw [hrun] at hlex
  exact hlex

/-- Witness for C1 (amended): constant clock 1000 and all-ones entropy;
the first two calls succeed (seed, then increment) and compare
strictly. -/
theorem c1_monotonic_lex_amended_witness :
    UUID7.lexLtBytes
      (UUID7.idAt UUID7.initState (fun _ => UUID7.onesB16)
        (fun _ => 1000) 0)
      (UUID7.idAt UUID7.initState (fun _ => UUID7.onesB16)
        (fun _ => 1000) 1) = true :=
  c1_monotonic_lex_amended (fun _ => UUID7.onesB16) (fun _ => 1000)
    (fun _ => show UUID7.wfB UUID7.onesB16 by decide)
    (fun _ => show ¬ (1000 : Nat) = 0 by decide)
    (fun _ => Nat.le_refl 1000)
    (fun _ => show (1000 : Nat) < 2 ^ 48 by norm_num) 0
    (by decide) (by decide)

/-- Witness for C4 at a concrete identifier (the repository's
`fromBytes` formatting test vector), dashed lowercase into a 37-byte
buffer. -/
theorem c4_tostring_parse_roundtrip_witness :
    ∃ cs, UUID7.toString
        ⟨1, 141, 150, 14, 43, 119, 127, 141, 156, 52, 86, 120, 154, 188,
          222, 240⟩ 37 false true = some cs ∧
      UUID7.parseFromString cs = some (UUID7.B16.toList
        ⟨1, 141, 150, 14, 43, 119, 127, 141, 156, 52, 86, 120, 154, 188,
          222, 240⟩) :=
  c4_tostring_parse_roundtrip
    ⟨1, 141, 150, 14, 43, 119, 127, 141, 156, 52, 86, 120, 154, 188,
      222, 240⟩ (by decide) 37 false true (by decide)

/-- C10: `fromBytes` copies the 16 input bytes verbatim into the buffer
(`data()` returns them unchanged, without validating or forcing
version/variant bits) and leaves every other generator field unchanged. -/
theorem c10_fromBytes_frame (s : UUID7.UUID7State) (x : UUID7.B16) :
    UUID7.data (UUID7.fromBytes s x) = x ∧
    (UUID7.fromBytes s x).b = x ∧
    (UUID7.fromBytes s x).last_ts_ms = s.last_ts_ms ∧
    (UUID7.fromBytes s x).last_saved_ts_ms = s.last_saved_ts_ms ∧
    (UUID7.fromBytes s x).save_interval_ms = s.save_interval_ms ∧
    (UUID7.fromBytes s x).version = s.version ∧
    (UUID7.fromBytes s x).overflowPolicy = s.overflowPolicy ∧
    (UUID7.fromBytes s x).has_load = s.has_load ∧
    (UUID7.fromBytes s x).has_save = s.has_save :=
  ⟨rfl, rfl, rfl, rfl, rfl, rfl, rfl, rfl, rfl⟩
